import Mathlib

/-!
# Orbital debris companion: the turn-resolution engine of `orbital.go`

A shallow embedding of the Go program and theorems about it.

Modelling conventions

* Go structs are Lean structures with the field names of the source.
* A Go `int` is a Lean `Int` in the range of 64 bits, `minInt .. maxInt`. The
  two counters of the program, `Time++` and `Stress += 10`, are `addInt`, which
  wraps round as the 64-bit addition does. `(CurrentHex + 1) % len` and
  `rand.Intn(n) + 1` are read over the integers: a cursor below `len` and a
  draw below `n` are too small for their sum with 1 to leave the range.
  `%` is Go's truncated remainder, `Int.tmod`.
* Pointers and slices that a function mutates in place become values that the
  function returns.
* The process-wide generator of `math/rand` and standard output are the two
  fields of `World`: a scripted sequence of draws with a cursor, and the list
  of print calls made so far.
* A run-time panic (integer division by zero, index out of range) is the
  error of `Except Panic`.
-/

namespace Orbital

/-! ## Data model -/

/-- CrewMember represents a single player in the game. -/
structure CrewMember where
  Name : String
  Action : String
  Stress : Int
  Rested : Bool
deriving DecidableEq, Repr

/-- Hex represents a hex on the map. -/
structure Hex where
  ID : Int
  IsExplored : Bool
  IsDangerous : Bool
  HasArtifact : Bool
  HiddenItems : Bool
  IsSafeToRest : Bool
deriving DecidableEq, Repr

/-- HexMap represents the map with multiple hexes. -/
structure HexMap where
  Hexes : List Hex
  CurrentHex : Int
deriving DecidableEq, Repr

/-- Warden represents the game master handling the procedure. -/
structure Warden where
  EventDie : Int
  Time : Int
deriving DecidableEq, Repr

/-- The six action names of the source. -/
def Trek : String := "Trek"

def Guard : String := "Guard"

def Encamp : String := "Encamp"

def Rest : String := "Rest"

def Explore : String := "Explore"

def Collect : String := "Collect"

/-! ## Runtime: panics, output, random draws -/

/-- The two run-time panics the program can raise. -/
inductive Panic where
  | integerDivideByZero
  | indexOutOfRange
deriving DecidableEq, Repr

/-- An argument of a `fmt.Printf` call. -/
inductive Arg where
  | str (s : String)
  | int (n : Int)
deriving DecidableEq, Repr

/-- One call of `fmt.Println` or `fmt.Printf`, kept as the call that was made. -/
inductive Print where
  | println (s : String)
  | printf (format : String) (args : List Arg)
deriving DecidableEq, Repr

/-- The ambient state of the process: the scripted random source (`seq` is the
sequence of raw draws, `pos` the number of draws consumed) and the print calls
made so far, oldest first. -/
structure World where
  seq : Nat → Nat
  pos : Nat
  stdout : List Print

/-- The call `fmt.Println(s)`. -/
def World.Println (g : World) (s : String) : World :=
  { g with stdout := g.stdout ++ [Print.println s] }

/-- The call `fmt.Printf(format, args...)`. -/
def World.Printf (g : World) (format : String) (args : List Arg) : World :=
  { g with stdout := g.stdout ++ [Print.printf format args] }

/-- The call `rand.Intn(n)`: the next scripted draw reduced to `[0, n)`; the
cursor moves by one. -/
def World.Intn (g : World) (n : Nat) : Int × World :=
  (((g.seq g.pos % n : Nat) : Int), { g with pos := g.pos + 1 })

/-- Slice indexing `xs[i]` with a Go `int` index: panics outside `[0, len)`. -/
def index {α : Type} (xs : List α) (i : Int) : Except Panic α :=
  if i < 0 then Except.error Panic.indexOutOfRange
  else
    match xs[i.toNat]? with
    | some x => Except.ok x
    | none => Except.error Panic.indexOutOfRange

/-! ## The functions of `orbital.go` -/

/-- InitializeCrew initializes a group of crew members. -/
def InitializeCrew (names : List String) : List CrewMember :=
  names.foldl (fun crew name => crew ++ [{ Name := name, Action := "", Stress := 0, Rested := true }]) []

/-- RollEventDie simulates rolling a d10 to determine an event. -/
def Warden.RollEventDie (w : Warden) (g : World) : Int × Warden × World :=
  let d := g.Intn 10
  let w := { w with EventDie := d.1 + 1 }
  (w.EventDie, w, d.2)

/-- Trek action allows the crew to move to an adjacent hex. -/
def TrekAction (hexMap : HexMap) (warden : Warden) (g : World) :
    Except Panic (HexMap × Warden × World) :=
  let g := g.Println "Crew treks to an adjacent hex."
  if hexMap.Hexes.length = 0 then Except.error Panic.integerDivideByZero
  else
    let hexMap := { hexMap with CurrentHex := (hexMap.CurrentHex + 1).tmod hexMap.Hexes.length }
    let r := warden.RollEventDie g
    let warden := r.2.1
    let g := r.2.2.Printf "Event die rolled: %d\n" [Arg.int warden.EventDie]
    match index hexMap.Hexes hexMap.CurrentHex with
    | Except.error e => Except.error e
    | Except.ok h =>
      if h.IsDangerous then
        let g := g.Println "The new hex is dangerous! Rolling for events..."
        let r := warden.RollEventDie g
        Except.ok (hexMap, r.2.1, r.2.2)
      else Except.ok (hexMap, warden, g)

/-- Guard action gives advanced warning for any dangers. -/
def GuardAction (g : World) : World :=
  g.Println "Crew member is guarding, they will have advanced warning of any danger."

/-- Encamp action allows the crew to rest safely. -/
def EncampAction (crew : List CrewMember) (hexMap : HexMap) (g : World) :
    Except Panic (List CrewMember × HexMap × World) :=
  match index hexMap.Hexes hexMap.CurrentHex with
  | Except.error e => Except.error e
  | Except.ok h =>
    if h.IsSafeToRest then
      let g := g.Println "The crew finds a safe place to rest."
      let crew := crew.map (fun c => { { c with Rested := true } with Stress := 0 })
      Except.ok (crew, hexMap, g)
    else
      Except.ok (crew, hexMap, g.Println "No safe place to rest. The crew cannot reduce stress.")

/-- Rest action attempts to reduce stress and recover. -/
def RestAction (crewMember : CrewMember) (g : World) : CrewMember × World :=
  let g := g.Printf "%s is resting.\n" [Arg.str crewMember.Name]
  if crewMember.Rested then
    ({ crewMember with Stress := 0 }, g.Println "Stress reduced!")
  else
    (crewMember, g.Println "No safe rest, stress remains.")

/-- Explore action discovers major hex features or hidden items. The source
takes a pointer into the slice, so the write lands in the map. -/
def ExploreAction (hexMap : HexMap) (g : World) : Except Panic (HexMap × World) :=
  match index hexMap.Hexes hexMap.CurrentHex with
  | Except.error e => Except.error e
  | Except.ok currentHex =>
    let g := g.Println "The crew explores the hex."
    if !currentHex.IsExplored then
      let g := g.Println "They discover major features of the hex."
      let hexMap := { hexMap with
        Hexes := hexMap.Hexes.set hexMap.CurrentHex.toNat { currentHex with IsExplored := true } }
      if currentHex.HiddenItems then
        Except.ok (hexMap, g.Println "Hidden items are found!")
      else Except.ok (hexMap, g)
    else
      Except.ok (hexMap, g.Println "No new discoveries.")

/-- Collect action allows the crew to gather resources. The source copies the
current hex into the local `currentHex` (`currentHex := hexMap.Hexes[...]`, no
`&`), so the assignment of the critical-success branch changes the local only;
the local is returned last so that the write stays visible in the model. -/
def CollectAction (crewMember : CrewMember) (hexMap : HexMap) (g : World) :
    Except Panic (CrewMember × HexMap × World × Hex) :=
  match index hexMap.Hexes hexMap.CurrentHex with
  | Except.error e => Except.error e
  | Except.ok currentHex =>
    let g := g.Printf "%s is collecting resources.\n" [Arg.str crewMember.Name]
    let d := g.Intn 20
    let roll := d.1 + 1
    let g := d.2
    if roll = 20 then
      let g := g.Println "Critical success! An artifact is discovered."
      Except.ok (crewMember, hexMap, g, { currentHex with HasArtifact := true })
    else if roll ≥ 15 then
      Except.ok (crewMember, hexMap, g.Println "Success! Useful goods are found.", currentHex)
    else if roll ≥ 10 then
      Except.ok (crewMember, hexMap, g.Println "Partial success. Some scrap is found.", currentHex)
    else
      let g := g.Println "Failure. Nothing of value is found."
      if roll = 1 then
        Except.ok (crewMember, hexMap,
          g.Println "Critical failure! The crew member is lost until another crew member explores.",
          currentHex)
      else Except.ok (crewMember, hexMap, g, currentHex)

/-- The largest value of Go's `int` on a 64-bit platform. -/
def maxInt : Int := 9223372036854775807

/-- The smallest value of Go's `int` on a 64-bit platform. -/
def minInt : Int := -9223372036854775808

/-- Go's `x + y` on `int`: the sum of two values of the type, brought back into
the range by `2 ^ 64` when it leaves it (two's complement wrap-around). Every
Go `int` lies in the range; on other integers, which no Go variable can hold,
the sum is left as it is. -/
def addInt (x y : Int) : Int :=
  if minInt ≤ x ∧ x ≤ maxInt ∧ minInt ≤ y ∧ y ≤ maxInt then
    if maxInt < x + y then x + y - 18446744073709551616
    else if x + y < minInt then x + y + 18446744073709551616
    else x + y
  else x + y

/-- The body of the loop of `TimePasses` for one crew member. -/
def exhaustionStep (c : CrewMember) (g : World) : CrewMember × World :=
  if !c.Rested then
    ({ { c with Stress := addInt c.Stress 10 } with Rested := false },
      g.Printf "%s suffers exhaustion penalties!\n" [Arg.str c.Name])
  else ({ c with Rested := false }, g)

/-- The loop `for i := range crew` of `TimePasses`, in roster order. -/
def exhaustionLoop : List CrewMember → World → List CrewMember × World
  | [], g => ([], g)
  | c :: cs, g =>
    let s := exhaustionStep c g
    let r := exhaustionLoop cs s.2
    (s.1 :: r.1, r.2)

/-- TimePasses updates the time and checks for exhaustion. -/
def TimePasses (warden : Warden) (crew : List CrewMember) (g : World) :
    Warden × List CrewMember × World :=
  let warden := { warden with Time := addInt warden.Time 1 }
  let g := g.Printf "Time passes. Watch %d is over.\n" [Arg.int warden.Time]
  if warden.Time.tmod 6 = 0 then
    let g := g.Println "End of the day. Checking for exhaustion penalties..."
    let r := exhaustionLoop crew g
    (warden, r.1, r.2)
  else (warden, crew, g)

/-- The local variables of `main` (`crew`, `hexMap`, `warden`) with the world. -/
structure Sim where
  crew : List CrewMember
  hexMap : HexMap
  warden : Warden
  world : World

/-- The assignment `crew[i].Action = action` of `main`. -/
def setAction (crew : List CrewMember) (i : Nat) (action : String) :
    Except Panic (List CrewMember) :=
  match crew[i]? with
  | none => Except.error Panic.indexOutOfRange
  | some c => Except.ok (crew.set i { c with Action := action })

/-- The statements of `main` under `Crew declares actions`: a sequence of
assignments `crew[i].Action = action`, in order. -/
def declare : List (Nat × String) → List CrewMember → Except Panic (List CrewMember)
  | [], crew => Except.ok crew
  | p :: rest, crew =>
    match setAction crew p.1 p.2 with
    | Except.error e => Except.error e
    | Except.ok crew' => declare rest crew'

/-- The `switch crew[i].Action` of `main`: cases `Trek`, `Guard`, `Rest`,
`Explore` and `Collect`, in this order; there is no case `Encamp` and no
`default`. -/
def resolveAction (s : Sim) (i : Nat) : Except Panic Sim :=
  match s.crew[i]? with
  | none => Except.error Panic.indexOutOfRange
  | some c =>
    if c.Action = Trek then
      match TrekAction s.hexMap s.warden s.world with
      | Except.error e => Except.error e
      | Except.ok r => Except.ok { s with hexMap := r.1, warden := r.2.1, world := r.2.2 }
    else if c.Action = Guard then
      Except.ok { s with world := GuardAction s.world }
    else if c.Action = Rest then
      let r := RestAction c s.world
      Except.ok { s with crew := s.crew.set i r.1, world := r.2 }
    else if c.Action = Explore then
      match ExploreAction s.hexMap s.world with
      | Except.error e => Except.error e
      | Except.ok r => Except.ok { s with hexMap := r.1, world := r.2 }
    else if c.Action = Collect then
      match CollectAction c s.hexMap s.world with
      | Except.error e => Except.error e
      | Except.ok r => Except.ok { s with crew := s.crew.set i r.1, hexMap := r.2.1, world := r.2.2.1 }
    else Except.ok s

/-- The loop `for i := range crew` of `main` over the indices still to visit. -/
def resolveLoop : List Nat → Sim → Except Panic Sim
  | [], s => Except.ok s
  | i :: rest, s =>
    match resolveAction s i with
    | Except.error e => Except.error e
    | Except.ok s' => resolveLoop rest s'

/-- Resolve each crew member's action, in roster order. -/
def resolveAll (s : Sim) : Except Panic Sim :=
  resolveLoop (List.range s.crew.length) s

/-- The body of the watch loop of `main`: the header line, the declarations
`decl`, the resolution of every member's action, then `TimePasses`. -/
def watchBody (decl : List (Nat × String)) (watch : Int) (s : Sim) : Except Panic Sim :=
  let g := s.world.Printf "\n--- Watch %d ---\n" [Arg.int watch]
  match declare decl s.crew with
  | Except.error e => Except.error e
  | Except.ok crew =>
    match resolveAll { s with crew := crew, world := g } with
    | Except.error e => Except.error e
    | Except.ok s' =>
      let r := TimePasses s'.warden s'.crew s'.world
      Except.ok { s' with warden := r.1, crew := r.2.1, world := r.2.2 }

/-- The loop `for watch := 1; watch <= n; watch++` of `main`, with the
declarations of watch `k` given by `decl k`. -/
def runWatches (decl : Nat → List (Nat × String)) : Nat → Sim → Except Panic Sim
  | 0, s => Except.ok s
  | n + 1, s =>
    match runWatches decl n s with
    | Except.error e => Except.error e
    | Except.ok s' => watchBody (decl (n + 1)) ((n + 1 : Nat) : Int) s'

/-- The declarations of every watch of `main`: the first member treks, the
second guards, the third rests. -/
def mainDecl : List (Nat × String) :=
  [(0, Trek), (1, Guard), (2, Rest)]

/-! ## Derived notions used to state the properties -/

/-- Trek resolved `n` times in a row, each on the state the previous one left. -/
def trekTimes : Nat → HexMap → Warden → World → Except Panic (HexMap × Warden × World)
  | 0, hexMap, warden, g => Except.ok (hexMap, warden, g)
  | n + 1, hexMap, warden, g =>
    match TrekAction hexMap warden g with
    | Except.error e => Except.error e
    | Except.ok r => trekTimes n r.1 r.2.1 r.2.2

/-- A world whose random source is scripted by `draws` (zero once the script is
used up), with nothing drawn and nothing printed yet. -/
def scripted (draws : List Nat) : World :=
  { seq := fun i => draws.getD i 0, pos := 0, stdout := [] }

/-- The three-hex map of `main`, with the party on the hex of index `cur`. -/
def sampleMap (cur : Int) : HexMap :=
  { Hexes :=
      [ { ID := 1, IsExplored := false, IsDangerous := false, HasArtifact := false,
          HiddenItems := true, IsSafeToRest := true },
        { ID := 2, IsExplored := false, IsDangerous := true, HasArtifact := false,
          HiddenItems := false, IsSafeToRest := false },
        { ID := 3, IsExplored := false, IsDangerous := false, HasArtifact := false,
          HiddenItems := false, IsSafeToRest := true } ],
    CurrentHex := cur }

/-- A crew member as `InitializeCrew` makes them. -/
def sampleMember : CrewMember :=
  { Name := "Alice", Action := "", Stress := 0, Rested := true }

/-- A two-member roster: the first member not rested, the second rested. -/
def sampleCrew : List CrewMember :=
  [ { Name := "Alice", Action := "Trek", Stress := 3, Rested := false },
    { Name := "Bob", Action := "Rest", Stress := 5, Rested := true } ]

/-- The print calls made from world `before` to world `after`. -/
def emitted (before after : World) : List Print :=
  after.stdout.drop before.stdout.length

/-- The five outcomes of a Collect check. -/
inductive Outcome where
  | criticalSuccess
  | success
  | partialSuccess
  | failure
  | criticalFailure
deriving DecidableEq, Repr

/-- The outcome a print call announces, if it is one of the five outcome lines
of `CollectAction`. -/
def Outcome.ofPrint : Print → Option Outcome
  | Print.println s =>
    if s = "Critical success! An artifact is discovered." then some Outcome.criticalSuccess
    else if s = "Success! Useful goods are found." then some Outcome.success
    else if s = "Partial success. Some scrap is found." then some Outcome.partialSuccess
    else if s = "Failure. Nothing of value is found." then some Outcome.failure
    else if s = "Critical failure! The crew member is lost until another crew member explores."
      then some Outcome.criticalFailure
    else none
  | Print.printf _ _ => none

/-- The outcomes reported by a list of print calls, in order. -/
def reportedOutcomes (ps : List Print) : List Outcome :=
  ps.filterMap Outcome.ofPrint

/-- The outcome the specification gives a check roll: the one whose inclusive
range holds the roll (20; 15..19; 10..14; 2..9; 1). -/
def specOutcome (r : Int) : Option Outcome :=
  if r = 20 then some Outcome.criticalSuccess
  else if 15 ≤ r ∧ r ≤ 19 then some Outcome.success
  else if 10 ≤ r ∧ r ≤ 14 then some Outcome.partialSuccess
  else if 2 ≤ r ∧ r ≤ 9 then some Outcome.failure
  else if r = 1 then some Outcome.criticalFailure
  else none

/-- Explore resolved `n` times in a row, each on the map the previous one left. -/
def exploreTimes : Nat → HexMap → World → Except Panic (HexMap × World)
  | 0, hexMap, g => Except.ok (hexMap, g)
  | n + 1, hexMap, g =>
    match ExploreAction hexMap g with
    | Except.error e => Except.error e
    | Except.ok r => exploreTimes n r.1 r.2

/-- The number of indices of `is` at which the roster has a member whose
declared action is Trek. -/
def treksAmong (crew : List CrewMember) : List Nat → Nat
  | [] => 0
  | i :: rest =>
    (if crew[i]?.map CrewMember.Action = some Trek then 1 else 0) + treksAmong crew rest

/-- The operations of the engine, named; `rest` and `collect` say which member
of the roster acts. -/
inductive Op where
  | trek
  | encamp
  | rest (i : Nat)
  | explore
  | collect (i : Nat)
  | timePasses
deriving DecidableEq, Repr

/-- The member an operation names, if it names one, is on the roster. -/
def Op.onRoster : Op → List CrewMember → Bool
  | Op.rest i, crew => decide (i < crew.length)
  | Op.collect i, crew => decide (i < crew.length)
  | _, _ => true

/-- One operation applied to the whole state: the function of the source is
called on the parts it takes, the other parts are passed through. -/
def applyOp : Op → Sim → Except Panic Sim
  | Op.trek, s =>
    match TrekAction s.hexMap s.warden s.world with
    | Except.error e => Except.error e
    | Except.ok r => Except.ok { s with hexMap := r.1, warden := r.2.1, world := r.2.2 }
  | Op.encamp, s =>
    match EncampAction s.crew s.hexMap s.world with
    | Except.error e => Except.error e
    | Except.ok r => Except.ok { s with crew := r.1, hexMap := r.2.1, world := r.2.2 }
  | Op.rest i, s =>
    match s.crew[i]? with
    | none => Except.error Panic.indexOutOfRange
    | some c => Except.ok { s with crew := s.crew.set i (RestAction c s.world).1, world := (RestAction c s.world).2 }
  | Op.explore, s =>
    match ExploreAction s.hexMap s.world with
    | Except.error e => Except.error e
    | Except.ok r => Except.ok { s with hexMap := r.1, world := r.2 }
  | Op.collect i, s =>
    match s.crew[i]? with
    | none => Except.error Panic.indexOutOfRange
    | some c =>
      match CollectAction c s.hexMap s.world with
      | Except.error e => Except.error e
      | Except.ok r => Except.ok { s with crew := s.crew.set i r.1, hexMap := r.2.1, world := r.2.2.1 }
  | Op.timePasses, s =>
    Except.ok { s with warden := (TimePasses s.warden s.crew s.world).1, crew := (TimePasses s.warden s.crew s.world).2.1, world := (TimePasses s.warden s.crew s.world).2.2 }

/-- The state a run starts from: the roster `InitializeCrew` builds from the
names, a map, and a warden at time 0. -/
def startState (names : List String) (hexMap : HexMap) (eventDie : Int) (g : World) : Sim :=
  { crew := InitializeCrew names, hexMap := hexMap, warden := { EventDie := eventDie, Time := 0 }, world := g }

/-- The run of `main`: three crew members, the three-hex map, four watches. -/
def main (g : World) : Except Panic Sim :=
  runWatches (fun _ => mainDecl) 4 (startState ["Alice", "Bob", "Charlie"] (sampleMap 0) 0 g)

/-! ## Basic facts about the runtime -/

theorem index_ok {α : Type} (xs : List α) (i : Int) (hlo : 0 ≤ i) (hhi : i < xs.length) :
    ∃ x, index xs i = Except.ok x ∧ xs[i.toNat]? = some x := by
  have h : i.toNat < xs.length := by omega
  refine ⟨xs[i.toNat], ?_, List.getElem?_eq_getElem h⟩
  unfold index
  simp [not_lt.mpr hlo, List.getElem?_eq_getElem h]

theorem next_hex_valid (c : Int) (n : Nat) (hlo : 0 ≤ c) (hn : 1 ≤ n) :
    (c + 1).tmod n = (c + 1) % n ∧ 0 ≤ (c + 1).tmod (n : Int) ∧ (c + 1).tmod (n : Int) < n := by
  have hn0 : (0 : Int) < n := by omega
  have e : (c + 1).tmod n = (c + 1) % n := Int.tmod_eq_emod (by omega) (by omega)
  refine ⟨e, ?_, ?_⟩
  · rw [e]; exact Int.emod_nonneg _ (by omega)
  · rw [e]; exact Int.emod_lt_of_pos _ hn0

/-! ## Trek -/

/-- Trek on a non-empty map with a valid cursor returns normally: the hexes are
kept, the cursor moves to the next index modulo the number of hexes, the
scripted sequence is kept, and one or two draws are consumed according to the
danger of the destination. -/
theorem TrekAction_ok (hexMap : HexMap) (warden : Warden) (g : World)
    (hne : 1 ≤ hexMap.Hexes.length) (hlo : 0 ≤ hexMap.CurrentHex) :
    ∃ warden' g' dest,
      TrekAction hexMap warden g =
        Except.ok ({ Hexes := hexMap.Hexes,
                     CurrentHex := (hexMap.CurrentHex + 1) % hexMap.Hexes.length }, warden', g') ∧
      index hexMap.Hexes ((hexMap.CurrentHex + 1) % hexMap.Hexes.length) = Except.ok dest ∧
      g'.seq = g.seq ∧
      g'.pos = g.pos + (if dest.IsDangerous then 2 else 1) ∧
      warden'.EventDie = ((g.seq (g'.pos - 1) % 10 : Nat) : Int) + 1 ∧
      warden'.Time = warden.Time := by
  obtain ⟨e, h0, h1⟩ := next_hex_valid hexMap.CurrentHex hexMap.Hexes.length hlo hne
  rw [e] at h0 h1
  obtain ⟨dest, hd, -⟩ := index_ok hexMap.Hexes _ h0 h1
  have hlen : ¬ hexMap.Hexes.length = 0 := by omega
  cases hdang : dest.IsDangerous
  · simp only [TrekAction, hlen, e, hd, hdang, if_false, Bool.false_eq_true]
    refine ⟨_, _, dest, rfl, rfl, ?_, ?_, ?_, ?_⟩ <;>
      simp [Warden.RollEventDie, World.Intn, World.Println, World.Printf, hdang]
  · simp only [TrekAction, hlen, e, hd, hdang, if_false, if_true]
    refine ⟨_, _, dest, rfl, rfl, ?_, ?_, ?_, ?_⟩ <;>
      simp [Warden.RollEventDie, World.Intn, World.Println, World.Printf, hdang]

/-- Any number of Treks on a valid map returns normally, keeps the hexes and
leaves the cursor `k` steps further round the circle. -/
theorem trekTimes_ok (k : Nat) : ∀ (hexMap : HexMap) (warden : Warden) (g : World),
    1 ≤ hexMap.Hexes.length → 0 ≤ hexMap.CurrentHex →
    hexMap.CurrentHex < hexMap.Hexes.length →
    ∃ warden' g',
      trekTimes k hexMap warden g =
        Except.ok ({ Hexes := hexMap.Hexes,
                     CurrentHex := (hexMap.CurrentHex + k) % hexMap.Hexes.length }, warden', g') := by
  induction k with
  | zero =>
    intro hexMap warden g _ hlo hhi
    refine ⟨warden, g, ?_⟩
    simp [trekTimes, Int.emod_eq_of_lt hlo hhi]
  | succ k ih =>
    intro hexMap warden g hne hlo _
    obtain ⟨w1, g1, dest, hT, -, -, -, -, -⟩ := TrekAction_ok hexMap warden g hne hlo
    have hn0 : (0 : Int) < hexMap.Hexes.length := by omega
    obtain ⟨w2, g2, h2⟩ :=
      ih (HexMap.mk hexMap.Hexes ((hexMap.CurrentHex + 1) % hexMap.Hexes.length)) w1 g1 hne
        (Int.emod_nonneg _ (by omega)) (Int.emod_lt_of_pos _ hn0)
    refine ⟨w2, g2, ?_⟩
    simp only [trekTimes, hT, h2]
    rw [Int.emod_add_emod]
    have e : hexMap.CurrentHex + 1 + (k : Int) = hexMap.CurrentHex + ((k : Int) + 1) := by ring
    simp [e]

/-- C1. With the random draws scripted, Trek on a map with at least one hex and
a valid cursor returns normally and consumes exactly one draw when the hex at
the new cursor is not dangerous and exactly two when it is; every draw is an
event-die roll, the last of which is the value left on the warden. -/
theorem TrekAction_event_die_rolls (hexMap : HexMap) (warden : Warden) (g : World)
    (hne : 1 ≤ hexMap.Hexes.length) (hlo : 0 ≤ hexMap.CurrentHex)
    (_hhi : hexMap.CurrentHex < hexMap.Hexes.length) :
    ∃ hexMap' warden' g' dest,
      TrekAction hexMap warden g = Except.ok (hexMap', warden', g') ∧
      index hexMap'.Hexes hexMap'.CurrentHex = Except.ok dest ∧
      g'.seq = g.seq ∧
      (dest.IsDangerous = false → g'.pos = g.pos + 1) ∧
      (dest.IsDangerous = true → g'.pos = g.pos + 2) ∧
      warden'.EventDie = ((g.seq (g'.pos - 1) % 10 : Nat) : Int) + 1 := by
  obtain ⟨w1, g1, dest, hT, hd, hs, hp, he, -⟩ := TrekAction_ok hexMap warden g hne hlo
  refine ⟨_, w1, g1, dest, hT, hd, hs, ?_, ?_, he⟩
  · intro h; simpa [h] using hp
  · intro h; simpa [h] using hp

/-- Witness of C1: the party on hex 0 of the sample map treks to the dangerous hex 1. -/
theorem TrekAction_event_die_rolls_witness :
    (1 ≤ (sampleMap 0).Hexes.length ∧ 0 ≤ (sampleMap 0).CurrentHex ∧
      (sampleMap 0).CurrentHex < (sampleMap 0).Hexes.length) ∧
    ∃ hexMap' warden' g' dest,
      TrekAction (sampleMap 0) { EventDie := 0, Time := 0 } (scripted [3, 4]) =
        Except.ok (hexMap', warden', g') ∧
      index hexMap'.Hexes hexMap'.CurrentHex = Except.ok dest ∧
      g'.seq = (scripted [3, 4]).seq ∧
      (dest.IsDangerous = false → g'.pos = (scripted [3, 4]).pos + 1) ∧
      (dest.IsDangerous = true → g'.pos = (scripted [3, 4]).pos + 2) ∧
      warden'.EventDie = (((scripted [3, 4]).seq (g'.pos - 1) % 10 : Nat) : Int) + 1 :=
  ⟨by decide, TrekAction_event_die_rolls (sampleMap 0) { EventDie := 0, Time := 0 }
    (scripted [3, 4]) (by decide) (by decide) (by decide)⟩

/-- C2. For every map with `N ≥ 1` hexes and a valid cursor and every sequence
of rolls, `N` Treks in a row return normally and leave the map, cursor
included, as it was before the first Trek. -/
theorem trekTimes_len_returns (hexMap : HexMap) (warden : Warden) (g : World)
    (hne : 1 ≤ hexMap.Hexes.length) (hlo : 0 ≤ hexMap.CurrentHex)
    (hhi : hexMap.CurrentHex < hexMap.Hexes.length) :
    ∃ warden' g',
      trekTimes hexMap.Hexes.length hexMap warden g = Except.ok (hexMap, warden', g') := by
  obtain ⟨w1, g1, h⟩ := trekTimes_ok hexMap.Hexes.length hexMap warden g hne hlo hhi
  refine ⟨w1, g1, ?_⟩
  rw [h, Int.add_emod_self, Int.emod_eq_of_lt hlo hhi]

/-- Witness of C2: three Treks on the three-hex sample map, starting on hex 2. -/
theorem trekTimes_len_returns_witness :
    (1 ≤ (sampleMap 2).Hexes.length ∧ 0 ≤ (sampleMap 2).CurrentHex ∧
      (sampleMap 2).CurrentHex < (sampleMap 2).Hexes.length) ∧
    ∃ warden' g',
      trekTimes (sampleMap 2).Hexes.length (sampleMap 2) { EventDie := 0, Time := 0 }
        (scripted [7, 1, 9, 2]) = Except.ok (sampleMap 2, warden', g') :=
  ⟨by decide, trekTimes_len_returns (sampleMap 2) { EventDie := 0, Time := 0 }
    (scripted [7, 1, 9, 2]) (by decide) (by decide) (by decide)⟩

/-! ## Collect -/

/-- What Collect does on a valid map, branch by branch of the check roll: the
crew member and the map come back as they went in, one draw is consumed, and
the print calls are the collecting line followed by the lines of the branch. -/
theorem CollectAction_ok (crewMember : CrewMember) (hexMap : HexMap) (g : World)
    (hlo : 0 ≤ hexMap.CurrentHex) (hhi : hexMap.CurrentHex < hexMap.Hexes.length) :
    ∃ g' loc currentHex,
      CollectAction crewMember hexMap g = Except.ok (crewMember, hexMap, g', loc) ∧
      index hexMap.Hexes hexMap.CurrentHex = Except.ok currentHex ∧
      g'.pos = g.pos + 1 ∧
      ((g.Intn 20).1 + 1 = 20 →
        loc = { currentHex with HasArtifact := true } ∧
        reportedOutcomes (emitted g g') = [Outcome.criticalSuccess]) ∧
      (15 ≤ (g.Intn 20).1 + 1 → (g.Intn 20).1 + 1 ≤ 19 →
        loc = currentHex ∧ reportedOutcomes (emitted g g') = [Outcome.success]) ∧
      (10 ≤ (g.Intn 20).1 + 1 → (g.Intn 20).1 + 1 ≤ 14 →
        loc = currentHex ∧ reportedOutcomes (emitted g g') = [Outcome.partialSuccess]) ∧
      (2 ≤ (g.Intn 20).1 + 1 → (g.Intn 20).1 + 1 ≤ 9 →
        loc = currentHex ∧ reportedOutcomes (emitted g g') = [Outcome.failure]) ∧
      ((g.Intn 20).1 + 1 = 1 →
        loc = currentHex ∧
        reportedOutcomes (emitted g g') = [Outcome.failure, Outcome.criticalFailure]) := by
  obtain ⟨currentHex, hd, -⟩ := index_ok hexMap.Hexes _ hlo hhi
  simp only [CollectAction, hd, World.Intn, World.Printf, World.Println]
  split_ifs with h20 h15 h10 h1 <;>
    refine ⟨_, _, currentHex, rfl, rfl, rfl, ?_⟩ <;>
    simp [emitted, reportedOutcomes, Outcome.ofPrint] <;>
    omega

/-- C3 (the code departs from the claim). Collect with a check roll of exactly
20 on hex 0 of the sample map: the write `HasArtifact = true` lands in the local
copy of the hex only; the map that comes back is the map that went in, with
`HasArtifact` false on every hex. -/
theorem CollectAction_roll_twenty_map_unchanged :
    ((scripted [19]).Intn 20).1 + 1 = 20 ∧
    ∃ g' loc,
      CollectAction sampleMember (sampleMap 0) (scripted [19]) =
        Except.ok (sampleMember, sampleMap 0, g', loc) ∧
      loc.HasArtifact = true ∧
      (sampleMap 0).Hexes.map Hex.HasArtifact = [false, false, false] :=
  ⟨by decide, _, _, rfl, rfl, by decide⟩

/-- C4 as stated fails at roll 1: Collect reports two outcomes there, failure
and then critical failure, not the single outcome of the range of 1. -/
theorem CollectAction_roll_one_reports_two :
    ((scripted [0]).Intn 20).1 + 1 = 1 ∧
    ∃ g' loc,
      CollectAction sampleMember (sampleMap 0) (scripted [0]) =
        Except.ok (sampleMember, sampleMap 0, g', loc) ∧
      reportedOutcomes (emitted (scripted [0]) g') = [Outcome.failure, Outcome.criticalFailure] ∧
      (reportedOutcomes (emitted (scripted [0]) g')).map some ≠ [specOutcome 1] := by
  obtain ⟨g', loc, _, hC, -, -, -, -, -, -, h1⟩ :=
    CollectAction_ok sampleMember (sampleMap 0) (scripted [0]) (by decide) (by decide)
  have hr : ((scripted [0]).Intn 20).1 + 1 = 1 := by decide
  refine ⟨hr, g', loc, hC, (h1 hr).2, ?_⟩
  rw [(h1 hr).2]
  simp

/-- C4, amended. For every check roll `r` with `1 ≤ r ≤ 20`, Collect on a valid
map returns normally; for `2 ≤ r ≤ 20` it reports exactly one outcome, the one
whose inclusive range holds `r`; for `r = 1` it reports failure followed by
critical failure and nothing else. -/
theorem CollectAction_reports (crewMember : CrewMember) (hexMap : HexMap) (g : World) (r : Int)
    (hr1 : 1 ≤ r) (hr20 : r ≤ 20) (hroll : (g.Intn 20).1 + 1 = r)
    (hlo : 0 ≤ hexMap.CurrentHex) (hhi : hexMap.CurrentHex < hexMap.Hexes.length) :
    ∃ g' loc,
      CollectAction crewMember hexMap g = Except.ok (crewMember, hexMap, g', loc) ∧
      (2 ≤ r → (reportedOutcomes (emitted g g')).map some = [specOutcome r]) ∧
      (r = 1 → reportedOutcomes (emitted g g') = [Outcome.failure, Outcome.criticalFailure]) := by
  obtain ⟨g', loc, _, hC, -, -, h20, h15, h10, h2, h1⟩ :=
    CollectAction_ok crewMember hexMap g hlo hhi
  rw [hroll] at h20 h15 h10 h2 h1
  refine ⟨g', loc, hC, ?_, fun h => (h1 h).2⟩
  intro hr2
  by_cases c20 : r = 20
  · rw [(h20 c20).2]; simp [specOutcome, c20]
  by_cases c15 : 15 ≤ r
  · rw [(h15 c15 (by omega)).2]
    have : r ≤ 19 := by omega
    simp [specOutcome, c20, c15, this]
  by_cases c10 : 10 ≤ r
  · rw [(h10 c10 (by omega)).2]
    have : r ≤ 14 := by omega
    simp [specOutcome, c20, c15, c10, this]
  · rw [(h2 hr2 (by omega)).2]
    have : r ≤ 9 := by omega
    simp [specOutcome, c20, c15, c10, hr2, this]

/-- Witness of C4 amended: a scripted draw of 16 is the check roll 17, a success. -/
theorem CollectAction_reports_witness :
    ((1 : Int) ≤ 17 ∧ (17 : Int) ≤ 20 ∧ ((scripted [16]).Intn 20).1 + 1 = 17 ∧
      0 ≤ (sampleMap 1).CurrentHex ∧ (sampleMap 1).CurrentHex < (sampleMap 1).Hexes.length) ∧
    ∃ g' loc,
      CollectAction sampleMember (sampleMap 1) (scripted [16]) =
        Except.ok (sampleMember, sampleMap 1, g', loc) ∧
      ((2 : Int) ≤ 17 →
        (reportedOutcomes (emitted (scripted [16]) g')).map some = [specOutcome 17]) ∧
      ((17 : Int) = 1 →
        reportedOutcomes (emitted (scripted [16]) g') =
          [Outcome.failure, Outcome.criticalFailure]) :=
  ⟨by decide, CollectAction_reports sampleMember (sampleMap 1) (scripted [16]) 17
    (by decide) (by decide) (by decide) (by decide) (by decide)⟩

/-- C5. For every check roll `r` with `2 ≤ r ≤ 19`, Collect on a valid map
returns normally with the crew member and the whole map (every hex, so every
`HasArtifact`, and the cursor) exactly as they were; the local copy of the
current hex is not written either. -/
theorem CollectAction_frame (crewMember : CrewMember) (hexMap : HexMap) (g : World) (r : Int)
    (hr2 : 2 ≤ r) (hr19 : r ≤ 19) (hroll : (g.Intn 20).1 + 1 = r)
    (hlo : 0 ≤ hexMap.CurrentHex) (hhi : hexMap.CurrentHex < hexMap.Hexes.length) :
    ∃ g' currentHex,
      CollectAction crewMember hexMap g = Except.ok (crewMember, hexMap, g', currentHex) ∧
      index hexMap.Hexes hexMap.CurrentHex = Except.ok currentHex := by
  obtain ⟨g', loc, currentHex, hC, hd, -, -, h15, h10, h2, -⟩ :=
    CollectAction_ok crewMember hexMap g hlo hhi
  rw [hroll] at h15 h10 h2
  have hloc : loc = currentHex := by
    by_cases c15 : 15 ≤ r
    · exact (h15 c15 hr19).1
    by_cases c10 : 10 ≤ r
    · exact (h10 c10 (by omega)).1
    · exact (h2 hr2 (by omega)).1
  exact ⟨g', currentHex, hloc ▸ hC, hd⟩

/-- Witness of C5: a scripted draw of 11 is the check roll 12. -/
theorem CollectAction_frame_witness :
    ((2 : Int) ≤ 12 ∧ (12 : Int) ≤ 19 ∧ ((scripted [11]).Intn 20).1 + 1 = 12 ∧
      0 ≤ (sampleMap 2).CurrentHex ∧ (sampleMap 2).CurrentHex < (sampleMap 2).Hexes.length) ∧
    ∃ g' currentHex,
      CollectAction sampleMember (sampleMap 2) (scripted [11]) =
        Except.ok (sampleMember, sampleMap 2, g', currentHex) ∧
      index (sampleMap 2).Hexes (sampleMap 2).CurrentHex = Except.ok currentHex :=
  ⟨by decide, CollectAction_frame sampleMember (sampleMap 2) (scripted [11]) 12
    (by decide) (by decide) (by decide) (by decide) (by decide)⟩

/-! ## TimePasses -/

/-- Below the top of the range the 64-bit addition of 10 is the addition. -/
theorem addInt_ten (x : Int) (h : x ≤ maxInt - 10) : addInt x 10 = x + 10 := by
  unfold addInt maxInt minInt at *
  split_ifs <;> omega

/-- Within 10 of the top of the range the 64-bit addition of 10 wraps round. -/
theorem addInt_ten_wraps (x : Int) (h : maxInt - 10 < x) (hx : x ≤ maxInt) :
    addInt x 10 = x + 10 - 18446744073709551616 := by
  unfold addInt maxInt minInt at *
  split_ifs <;> omega

/-- Below the top of the range the 64-bit increment is the successor. -/
theorem addInt_one (x : Int) (h : x < maxInt) : addInt x 1 = x + 1 := by
  unfold addInt maxInt minInt at *
  split_ifs <;> omega

/-- At the top of the range the 64-bit increment gives the bottom. -/
theorem addInt_one_wraps : addInt maxInt 1 = minInt := by
  decide

/-- The 64-bit increment is a multiple of 6 exactly when the successor is: the
only wrap is from `2 ^ 63 - 1` to `- 2 ^ 63`, and `2 ^ 63` is no multiple of 6. -/
theorem addInt_one_dvd (x : Int) : (6 : Int) ∣ addInt x 1 ↔ (6 : Int) ∣ x + 1 := by
  unfold addInt maxInt minInt
  split_ifs <;> omega

theorem exhaustionStep_fst (c : CrewMember) (g : World) :
    (exhaustionStep c g).1 =
      { Name := c.Name, Action := c.Action,
        Stress := if c.Rested then c.Stress else addInt c.Stress 10, Rested := false } := by
  cases hr : c.Rested <;> simp [exhaustionStep, hr]

/-- The day-boundary loop rewrites the roster member by member, in order. -/
theorem exhaustionLoop_fst (crew : List CrewMember) : ∀ g : World,
    (exhaustionLoop crew g).1 =
      crew.map (fun c =>
        { Name := c.Name, Action := c.Action,
          Stress := if c.Rested then c.Stress else addInt c.Stress 10, Rested := false }) := by
  induction crew with
  | nil => intro g; rfl
  | cons c cs ih =>
    intro g
    simp only [exhaustionLoop, List.map_cons, ih, exhaustionStep_fst]

theorem TimePasses_warden (warden : Warden) (crew : List CrewMember) (g : World) :
    (TimePasses warden crew g).1 = { warden with Time := addInt warden.Time 1 } := by
  unfold TimePasses
  simp only []
  split_ifs <;> rfl

theorem TimePasses_crew_boundary (warden : Warden) (crew : List CrewMember) (g : World)
    (hday : (6 : Int) ∣ warden.Time + 1) :
    (TimePasses warden crew g).2.1 =
      crew.map (fun c =>
        { Name := c.Name, Action := c.Action,
          Stress := if c.Rested then c.Stress else addInt c.Stress 10, Rested := false }) := by
  have h : (addInt warden.Time 1).tmod 6 = 0 :=
    Int.tmod_eq_zero_of_dvd ((addInt_one_dvd warden.Time).mpr hday)
  simp only [TimePasses, h, if_true, exhaustionLoop_fst]

theorem TimePasses_crew_inside (warden : Warden) (crew : List CrewMember) (g : World)
    (hday : ¬ (6 : Int) ∣ warden.Time + 1) :
    (TimePasses warden crew g).2.1 = crew := by
  have h : ¬ (addInt warden.Time 1).tmod 6 = 0 :=
    fun h => hday ((addInt_one_dvd warden.Time).mp (Int.dvd_of_tmod_eq_zero h))
  simp only [TimePasses, h, if_false]

/-- C6 as stated fails: at the day boundary of watch 6 a member who is not
rested and has stress `maxInt - 5` ends with stress `-9223372036854775804`, the
wrapped sum, not with stress increased by 10. -/
theorem TimePasses_stress_wraps :
    ((6 : Int) ∣ (Warden.mk 0 5).Time + 1) ∧
    (TimePasses (Warden.mk 0 5) [CrewMember.mk "Alice" "" 9223372036854775802 false]
        (scripted [])).2.1 =
      [CrewMember.mk "Alice" "" (-9223372036854775804) false] ∧
    (-9223372036854775804 : Int) ≠ 9223372036854775802 + 10 := by
  refine ⟨by decide, ?_, by decide⟩
  rw [TimePasses_crew_boundary _ _ _ (by decide)]
  decide

/-- C6, amended. When `time + 1` is a multiple of 6, TimePasses keeps the roster
length and order and, member by member: the name (and declared action) is
unchanged, `Rested` is false afterwards, a member that was rested has `Stress`
unchanged, and a member that was not rested has `Stress` increased by exactly
10 if it was at most `maxInt - 10`, and replaced by the wrapped sum
`Stress + 10 - 2 ^ 64` if it was above. -/
theorem TimePasses_day_boundary (warden : Warden) (crew : List CrewMember) (g : World)
    (hday : (6 : Int) ∣ warden.Time + 1) :
    (TimePasses warden crew g).2.1.length = crew.length ∧
    ∀ (i : Nat) (c : CrewMember), crew[i]? = some c →
      ∃ c', (TimePasses warden crew g).2.1[i]? = some c' ∧
        c'.Name = c.Name ∧ c'.Action = c.Action ∧ c'.Rested = false ∧
        (c.Rested = false → c.Stress ≤ maxInt - 10 → c'.Stress = c.Stress + 10) ∧
        (c.Rested = false → maxInt - 10 < c.Stress → c.Stress ≤ maxInt →
          c'.Stress = c.Stress + 10 - 18446744073709551616) ∧
        (c.Rested = true → c'.Stress = c.Stress) := by
  rw [TimePasses_crew_boundary warden crew g hday]
  refine ⟨by simp, ?_⟩
  intro i c hc
  refine ⟨{ Name := c.Name, Action := c.Action,
            Stress := if c.Rested then c.Stress else addInt c.Stress 10, Rested := false },
    by rw [List.getElem?_map, hc]; rfl, rfl, rfl, rfl, ?_, ?_, ?_⟩
  · intro h hle; simp [h, addInt_ten c.Stress hle]
  · intro h hlt hle; simp [h, addInt_ten_wraps c.Stress hlt hle]
  · intro h; simp [h]

/-- Witness of C6 amended: watch 6 ends on the sample roster. -/
theorem TimePasses_day_boundary_witness :
    ((6 : Int) ∣ (Warden.mk 4 5).Time + 1) ∧
    (TimePasses (Warden.mk 4 5) sampleCrew (scripted [])).2.1.length = sampleCrew.length ∧
    ∀ (i : Nat) (c : CrewMember), sampleCrew[i]? = some c →
      ∃ c', (TimePasses (Warden.mk 4 5) sampleCrew (scripted [])).2.1[i]? = some c' ∧
        c'.Name = c.Name ∧ c'.Action = c.Action ∧ c'.Rested = false ∧
        (c.Rested = false → c.Stress ≤ maxInt - 10 → c'.Stress = c.Stress + 10) ∧
        (c.Rested = false → maxInt - 10 < c.Stress → c.Stress ≤ maxInt →
          c'.Stress = c.Stress + 10 - 18446744073709551616) ∧
        (c.Rested = true → c'.Stress = c.Stress) :=
  ⟨by decide, TimePasses_day_boundary (Warden.mk 4 5) sampleCrew (scripted []) (by decide)⟩

/-- C7. When `time + 1` is not a multiple of 6, TimePasses returns the roster
as it was: every member's stress, rested flag, name and action. -/
theorem TimePasses_inside_day (warden : Warden) (crew : List CrewMember) (g : World)
    (hday : ¬ (6 : Int) ∣ warden.Time + 1) :
    (TimePasses warden crew g).2.1 = crew :=
  TimePasses_crew_inside warden crew g hday

/-- Witness of C7: watch 3 ends on the sample roster. -/
theorem TimePasses_inside_day_witness :
    (¬ (6 : Int) ∣ (Warden.mk 4 2).Time + 1) ∧
    (TimePasses (Warden.mk 4 2) sampleCrew (scripted [])).2.1 = sampleCrew :=
  ⟨by decide, TimePasses_inside_day (Warden.mk 4 2) sampleCrew (scripted []) (by decide)⟩

theorem TimePasses_length (warden : Warden) (crew : List CrewMember) (g : World) :
    (TimePasses warden crew g).2.1.length = crew.length := by
  by_cases hday : (6 : Int) ∣ warden.Time + 1
  · rw [TimePasses_crew_boundary warden crew g hday]; simp
  · rw [TimePasses_crew_inside warden crew g hday]

/-- C8 as stated fails: at `Time = maxInt` the increment wraps round and
TimePasses leaves `Time = minInt`, not `Time + 1`. -/
theorem TimePasses_time_wraps :
    (TimePasses (Warden.mk 0 maxInt) [] (scripted [])).1.Time = minInt ∧
    minInt ≠ maxInt + 1 := by
  refine ⟨?_, by decide⟩
  rw [TimePasses_warden]
  exact addInt_one_wraps

/-- C8, amended. For every warden and every roster, TimePasses leaves
`EventDie` unchanged and keeps the roster length, and on the empty roster the
roster that comes back is empty; it increases `Time` by exactly 1 for every
`Time` below `maxInt`, and at `Time = maxInt` it leaves `Time = minInt`. -/
theorem TimePasses_time (warden : Warden) (crew : List CrewMember) (g : World) :
    (warden.Time < maxInt → (TimePasses warden crew g).1.Time = warden.Time + 1) ∧
    (warden.Time = maxInt → (TimePasses warden crew g).1.Time = minInt) ∧
    (TimePasses warden crew g).1.EventDie = warden.EventDie ∧
    (TimePasses warden crew g).2.1.length = crew.length ∧
    (TimePasses warden [] g).2.1 = [] := by
  refine ⟨?_, ?_, by rw [TimePasses_warden], TimePasses_length warden crew g, ?_⟩
  · intro h
    rw [TimePasses_warden]
    exact addInt_one warden.Time h
  · intro h
    rw [TimePasses_warden]
    simp only [h]
    exact addInt_one_wraps
  · exact List.length_eq_zero.mp (TimePasses_length warden [] g)

/-- Witness of C8 amended: watch 6 ends on the sample roster. -/
theorem TimePasses_time_witness :
    ((Warden.mk 4 5).Time < maxInt →
      (TimePasses (Warden.mk 4 5) sampleCrew (scripted [])).1.Time = (Warden.mk 4 5).Time + 1) ∧
    ((Warden.mk 4 5).Time = maxInt →
      (TimePasses (Warden.mk 4 5) sampleCrew (scripted [])).1.Time = minInt) ∧
    (TimePasses (Warden.mk 4 5) sampleCrew (scripted [])).1.EventDie = (Warden.mk 4 5).EventDie ∧
    (TimePasses (Warden.mk 4 5) sampleCrew (scripted [])).2.1.length = sampleCrew.length ∧
    (TimePasses (Warden.mk 4 5) [] (scripted [])).2.1 = [] :=
  TimePasses_time (Warden.mk 4 5) sampleCrew (scripted [])

/-! ## Encamp and Rest -/

/-- C9. On a valid map Encamp returns normally with the map as it was. If the
current hex is safe to rest on, the roster keeps its length and every member
of it has `Stress = 0` and `Rested = true`, whatever they had before; if it is
not, the roster comes back exactly as it was. -/
theorem EncampAction_effect (crew : List CrewMember) (hexMap : HexMap) (g : World)
    (hlo : 0 ≤ hexMap.CurrentHex) (hhi : hexMap.CurrentHex < hexMap.Hexes.length) :
    ∃ h crew' g',
      index hexMap.Hexes hexMap.CurrentHex = Except.ok h ∧
      EncampAction crew hexMap g = Except.ok (crew', hexMap, g') ∧
      (h.IsSafeToRest = true →
        crew'.length = crew.length ∧ ∀ c ∈ crew', c.Stress = 0 ∧ c.Rested = true) ∧
      (h.IsSafeToRest = false → crew' = crew) := by
  obtain ⟨h, hd, -⟩ := index_ok hexMap.Hexes _ hlo hhi
  cases hs : h.IsSafeToRest
  · simp only [EncampAction, hd, hs, Bool.false_eq_true, if_false]
    refine ⟨h, crew, _, rfl, rfl, ?_, ?_⟩
    · intro hc; rw [hs] at hc; cases hc
    · intro _; rfl
  · simp only [EncampAction, hd, hs, if_true]
    refine ⟨h, _, _, rfl, rfl, ?_, ?_⟩
    · intro _
      refine ⟨by simp, ?_⟩
      intro c hc
      obtain ⟨c0, -, rfl⟩ := List.mem_map.mp hc
      exact ⟨rfl, rfl⟩
    · intro hc; rw [hs] at hc; cases hc

/-- Witness of C9: the sample roster encamps on hex 0 of the sample map. -/
theorem EncampAction_effect_witness :
    (0 ≤ (sampleMap 0).CurrentHex ∧ (sampleMap 0).CurrentHex < (sampleMap 0).Hexes.length) ∧
    ∃ h crew' g',
      index (sampleMap 0).Hexes (sampleMap 0).CurrentHex = Except.ok h ∧
      EncampAction sampleCrew (sampleMap 0) (scripted []) = Except.ok (crew', sampleMap 0, g') ∧
      (h.IsSafeToRest = true →
        crew'.length = sampleCrew.length ∧ ∀ c ∈ crew', c.Stress = 0 ∧ c.Rested = true) ∧
      (h.IsSafeToRest = false → crew' = sampleCrew) :=
  ⟨by decide, EncampAction_effect sampleCrew (sampleMap 0) (scripted []) (by decide) (by decide)⟩

/-- C10. Rest sets `Stress` to 0 when the member's `Rested` flag is true and
leaves `Stress` unchanged when it is false; the `Rested` flag, the name and the
declared action are unchanged in both cases. -/
theorem RestAction_effect (crewMember : CrewMember) (g : World) :
    (crewMember.Rested = true → (RestAction crewMember g).1.Stress = 0) ∧
    (crewMember.Rested = false → (RestAction crewMember g).1.Stress = crewMember.Stress) ∧
    (RestAction crewMember g).1.Rested = crewMember.Rested ∧
    (RestAction crewMember g).1.Name = crewMember.Name ∧
    (RestAction crewMember g).1.Action = crewMember.Action := by
  cases hr : crewMember.Rested <;> simp [RestAction, hr]

/-! ## InitializeCrew -/

theorem InitializeCrew_foldl (names : List String) : ∀ acc : List CrewMember,
    names.foldl
        (fun crew name => crew ++ [{ Name := name, Action := "", Stress := 0, Rested := true }])
        acc =
      acc ++ names.map (fun name => { Name := name, Action := "", Stress := 0, Rested := true }) := by
  induction names with
  | nil => intro acc; simp
  | cons n ns ih => intro acc; simp [List.foldl_cons, ih]

theorem InitializeCrew_eq_map (names : List String) :
    InitializeCrew names =
      names.map (fun name => { Name := name, Action := "", Stress := 0, Rested := true }) := by
  unfold InitializeCrew
  rw [InitializeCrew_foldl]
  simp

/-- C13. For every list of names, InitializeCrew returns a roster of the same
length whose i-th member has the i-th name, `Stress = 0` and `Rested = true`;
the names of the roster, in order, are the names given, duplicates included. -/
theorem InitializeCrew_roster (names : List String) :
    (InitializeCrew names).length = names.length ∧
    (∀ (i : Nat) (name : String), names[i]? = some name →
      ∃ c, (InitializeCrew names)[i]? = some c ∧
        c.Name = name ∧ c.Stress = 0 ∧ c.Rested = true) ∧
    (InitializeCrew names).map CrewMember.Name = names := by
  rw [InitializeCrew_eq_map]
  refine ⟨by simp, ?_, ?_⟩
  · intro i name hn
    refine ⟨{ Name := name, Action := "", Stress := 0, Rested := true }, ?_, rfl, rfl, rfl⟩
    rw [List.getElem?_map, hn]
    rfl
  · simp [Function.comp_def]

/-! ## Explore -/

theorem index_valid {α : Type} (xs : List α) (i : Int) (x : α)
    (h : index xs i = Except.ok x) : 0 ≤ i ∧ i < xs.length ∧ xs[i.toNat]? = some x := by
  unfold index at h
  split_ifs at h with hneg
  cases hx : xs[i.toNat]? with
  | none => rw [hx] at h; cases h
  | some y =>
    rw [hx] at h
    have hlt : i.toNat < xs.length := (List.getElem?_eq_some_iff.mp hx).1
    cases h
    exact ⟨by omega, by omega, rfl⟩

theorem index_set_self {α : Type} (xs : List α) (i : Int) (x y : α)
    (h : index xs i = Except.ok x) : index (xs.set i.toNat y) i = Except.ok y := by
  obtain ⟨hlo, hhi, -⟩ := index_valid xs i x h
  have hlt : i.toNat < xs.length := by omega
  unfold index
  simp [not_lt.mpr hlo, hlt]

/-- The first Explore of an unexplored hex with hidden items. -/
theorem ExploreAction_first (hexMap : HexMap) (g : World) (h : Hex)
    (hcur : index hexMap.Hexes hexMap.CurrentHex = Except.ok h)
    (hun : h.IsExplored = false) (hhid : h.HiddenItems = true) :
    ExploreAction hexMap g =
      Except.ok
        ({ Hexes := hexMap.Hexes.set hexMap.CurrentHex.toNat { h with IsExplored := true },
           CurrentHex := hexMap.CurrentHex },
         ((g.Println "The crew explores the hex.").Println
            "They discover major features of the hex.").Println "Hidden items are found!") := by
  simp [ExploreAction, hcur, hun, hhid]

/-- Explore of a hex that is explored already. -/
theorem ExploreAction_again (hexMap : HexMap) (g : World) (h : Hex)
    (hcur : index hexMap.Hexes hexMap.CurrentHex = Except.ok h)
    (hex : h.IsExplored = true) :
    ExploreAction hexMap g =
      Except.ok (hexMap, (g.Println "The crew explores the hex.").Println "No new discoveries.") := by
  simp [ExploreAction, hcur, hex]

theorem exploreTimes_again (m : Nat) (hexMap : HexMap) (h : Hex)
    (hcur : index hexMap.Hexes hexMap.CurrentHex = Except.ok h)
    (hex : h.IsExplored = true) : ∀ g : World,
    ∃ g', exploreTimes m hexMap g = Except.ok (hexMap, g') ∧
      g'.stdout = g.stdout ++
        (List.replicate m [Print.println "The crew explores the hex.",
          Print.println "No new discoveries."]).flatten := by
  induction m with
  | zero => intro g; exact ⟨g, rfl, by simp⟩
  | succ m ih =>
    intro g
    obtain ⟨g', h1, h2⟩ :=
      ih ((g.Println "The crew explores the hex.").Println "No new discoveries.")
    refine ⟨g', ?_, ?_⟩
    · simp only [exploreTimes, ExploreAction_again hexMap g h hcur hex, h1]
    · rw [h2]
      simp [World.Println, List.replicate_succ]

theorem count_hidden_again (m : Nat) :
    (List.replicate m [Print.println "The crew explores the hex.",
        Print.println "No new discoveries."]).flatten.count
      (Print.println "Hidden items are found!") = 0 := by
  induction m with
  | zero => rfl
  | succ m ih =>
    rw [List.replicate_succ, List.flatten_cons, List.count_append, ih]
    decide

/-- C11. For every `k ≥ 1` and every map whose current hex is unexplored and
has hidden items, `k` Explores in a row return normally; the first prints the
explore line, the discovery of major features and the discovery of hidden
items; each later one prints the explore line and `No new discoveries.` only;
so hidden items are reported exactly once; and the map after `k` Explores is
the map after one, which any further Explore leaves unchanged. -/
theorem ExploreAction_discovers_once (k : Nat) (hexMap : HexMap) (g : World) (h : Hex)
    (hk : 1 ≤ k) (hcur : index hexMap.Hexes hexMap.CurrentHex = Except.ok h)
    (hun : h.IsExplored = false) (hhid : h.HiddenItems = true) :
    ∃ hexMap1 g1 gk,
      ExploreAction hexMap g = Except.ok (hexMap1, g1) ∧
      emitted g g1 =
        [Print.println "The crew explores the hex.",
         Print.println "They discover major features of the hex.",
         Print.println "Hidden items are found!"] ∧
      exploreTimes k hexMap g = Except.ok (hexMap1, gk) ∧
      emitted g gk = emitted g g1 ++
        (List.replicate (k - 1) [Print.println "The crew explores the hex.",
          Print.println "No new discoveries."]).flatten ∧
      (emitted g gk).count (Print.println "Hidden items are found!") = 1 ∧
      ∀ g' : World, ExploreAction hexMap1 g' =
        Except.ok (hexMap1,
          (g'.Println "The crew explores the hex.").Println "No new discoveries.") := by
  obtain ⟨m, rfl⟩ : ∃ m, k = m + 1 := ⟨k - 1, by omega⟩
  have hF := ExploreAction_first hexMap g h hcur hun hhid
  have hcur1 := index_set_self hexMap.Hexes hexMap.CurrentHex h { h with IsExplored := true } hcur
  obtain ⟨gk, hk1, hk2⟩ := exploreTimes_again m
    (HexMap.mk (hexMap.Hexes.set hexMap.CurrentHex.toNat { h with IsExplored := true })
      hexMap.CurrentHex)
    { h with IsExplored := true } hcur1 rfl
    (((g.Println "The crew explores the hex.").Println
      "They discover major features of the hex.").Println "Hidden items are found!")
  have e1 : emitted g (((g.Println "The crew explores the hex.").Println
      "They discover major features of the hex.").Println "Hidden items are found!") =
      [Print.println "The crew explores the hex.",
       Print.println "They discover major features of the hex.",
       Print.println "Hidden items are found!"] := by
    simp [emitted, World.Println]
  have ek : emitted g gk =
      [Print.println "The crew explores the hex.",
       Print.println "They discover major features of the hex.",
       Print.println "Hidden items are found!"] ++
      (List.replicate m [Print.println "The crew explores the hex.",
          Print.println "No new discoveries."]).flatten := by
    simp [emitted, hk2, World.Println]
  refine ⟨_, _, gk, hF, e1, ?_, ?_, ?_, ?_⟩
  · simp only [exploreTimes, hF, hk1]
  · rw [ek, e1]; simp
  · rw [ek, List.count_append, count_hidden_again]
    decide
  · intro g'
    exact ExploreAction_again _ g' { h with IsExplored := true } hcur1 rfl

/-- Witness of C11: four Explores on hex 0 of the sample map. -/
theorem ExploreAction_discovers_once_witness :
    (1 ≤ 4 ∧
      index (sampleMap 0).Hexes (sampleMap 0).CurrentHex =
        Except.ok (Hex.mk 1 false false false true true) ∧
      (Hex.mk 1 false false false true true).IsExplored = false ∧
      (Hex.mk 1 false false false true true).HiddenItems = true) ∧
    ∃ hexMap1 g1 gk,
      ExploreAction (sampleMap 0) (scripted []) = Except.ok (hexMap1, g1) ∧
      emitted (scripted []) g1 =
        [Print.println "The crew explores the hex.",
         Print.println "They discover major features of the hex.",
         Print.println "Hidden items are found!"] ∧
      exploreTimes 4 (sampleMap 0) (scripted []) = Except.ok (hexMap1, gk) ∧
      emitted (scripted []) gk = emitted (scripted []) g1 ++
        (List.replicate (4 - 1) [Print.println "The crew explores the hex.",
          Print.println "No new discoveries."]).flatten ∧
      (emitted (scripted []) gk).count (Print.println "Hidden items are found!") = 1 ∧
      ∀ g' : World, ExploreAction hexMap1 g' =
        Except.ok (hexMap1,
          (g'.Println "The crew explores the hex.").Println "No new discoveries.") :=
  ⟨⟨by decide, rfl, rfl, rfl⟩,
    ExploreAction_discovers_once 4 (sampleMap 0) (scripted [])
      (Hex.mk 1 false false false true true) (by decide) rfl rfl rfl⟩

/-! ## The empty map -/

/-- C14 as stated fails: on the map with no hexes Trek stops with the fault
integer divide by zero, Explore and Collect with the fault index out of range. -/
theorem empty_map_faults :
    TrekAction (HexMap.mk [] 0) (Warden.mk 0 0) (scripted []) =
      Except.error Panic.integerDivideByZero ∧
    ExploreAction (HexMap.mk [] 0) (scripted []) = Except.error Panic.indexOutOfRange ∧
    CollectAction sampleMember (HexMap.mk [] 0) (scripted []) =
      Except.error Panic.indexOutOfRange :=
  ⟨rfl, rfl, rfl⟩

theorem index_nil_hexes (hexMap : HexMap) (hlen : hexMap.Hexes.length = 0) :
    index hexMap.Hexes hexMap.CurrentHex = Except.error Panic.indexOutOfRange := by
  have hnil : hexMap.Hexes = [] := List.length_eq_zero.mp hlen
  unfold index
  split_ifs
  · rfl
  · simp [hnil]

/-- C14, amended. On a map with zero hexes, whatever the cursor, the warden,
the crew member and the rolls: Trek stops with the run-time fault integer
divide by zero, Explore and Collect stop with the run-time fault index out of
range; none returns normally, so none returns a changed map, warden or crew. -/
theorem empty_map_panics (hexMap : HexMap) (warden : Warden) (crewMember : CrewMember)
    (g : World) (hlen : hexMap.Hexes.length = 0) :
    TrekAction hexMap warden g = Except.error Panic.integerDivideByZero ∧
    ExploreAction hexMap g = Except.error Panic.indexOutOfRange ∧
    CollectAction crewMember hexMap g = Except.error Panic.indexOutOfRange := by
  have hi := index_nil_hexes hexMap hlen
  refine ⟨?_, ?_, ?_⟩
  · simp [TrekAction, hlen]
  · simp [ExploreAction, hi]
  · simp [CollectAction, hi]

/-- Witness of C14 amended: the empty map with the cursor at 0. -/
theorem empty_map_panics_witness :
    (HexMap.mk [] 0).Hexes.length = 0 ∧
    (TrekAction (HexMap.mk [] 0) (Warden.mk 0 0) (scripted [5]) =
        Except.error Panic.integerDivideByZero ∧
      ExploreAction (HexMap.mk [] 0) (scripted [5]) = Except.error Panic.indexOutOfRange ∧
      CollectAction sampleMember (HexMap.mk [] 0) (scripted [5]) =
        Except.error Panic.indexOutOfRange) :=
  ⟨rfl, empty_map_panics (HexMap.mk [] 0) (Warden.mk 0 0) sampleMember (scripted [5]) rfl⟩

/-! ## The action switch of `main` -/

/-- C15 as stated fails: resolving the empty action returns normally and
changes nothing; no error is raised. -/
theorem resolveAction_none_is_silent :
    (Sim.mk [sampleMember] (sampleMap 0) (Warden.mk 0 0) (scripted [])).crew[0]? =
      some sampleMember ∧
    sampleMember.Action = "" ∧
    ∃ s', resolveAction (Sim.mk [sampleMember] (sampleMap 0) (Warden.mk 0 0) (scripted [])) 0 =
        Except.ok s' ∧
      s'.crew = [sampleMember] ∧ s'.hexMap = sampleMap 0 ∧ s'.warden = Warden.mk 0 0 ∧
      s'.world.stdout = [] ∧ s'.world.pos = 0 :=
  ⟨rfl, rfl, _, rfl, rfl, rfl, rfl, rfl, rfl⟩

/-- C15, amended. For every action value that is not one of Trek, Guard,
Encamp, Rest, Explore, Collect (the empty action included), resolving it for a
member of the roster returns normally with the roster, the map, the warden,
the output and the random source exactly as they were. -/
theorem resolveAction_unrecognized (s : Sim) (i : Nat) (c : CrewMember)
    (hc : s.crew[i]? = some c)
    (hTrek : c.Action ≠ Trek) (hGuard : c.Action ≠ Guard) (_hEncamp : c.Action ≠ Encamp)
    (hRest : c.Action ≠ Rest) (hExplore : c.Action ≠ Explore) (hCollect : c.Action ≠ Collect) :
    resolveAction s i = Except.ok s := by
  simp [resolveAction, hc, hTrek, hGuard, hRest, hExplore, hCollect]

/-- Witness of C15 amended: a member whose declared action is `Dance`. -/
theorem resolveAction_unrecognized_witness :
    ((Sim.mk [CrewMember.mk "Alice" "Dance" 3 false] (sampleMap 0) (Warden.mk 0 0)
          (scripted [])).crew[0]? = some (CrewMember.mk "Alice" "Dance" 3 false) ∧
      "Dance" ≠ Trek ∧ "Dance" ≠ Guard ∧ "Dance" ≠ Encamp ∧ "Dance" ≠ Rest ∧
      "Dance" ≠ Explore ∧ "Dance" ≠ Collect) ∧
    resolveAction (Sim.mk [CrewMember.mk "Alice" "Dance" 3 false] (sampleMap 0) (Warden.mk 0 0)
        (scripted [])) 0 =
      Except.ok (Sim.mk [CrewMember.mk "Alice" "Dance" 3 false] (sampleMap 0) (Warden.mk 0 0)
        (scripted [])) :=
  ⟨by decide,
    resolveAction_unrecognized
      (Sim.mk [CrewMember.mk "Alice" "Dance" 3 false] (sampleMap 0) (Warden.mk 0 0) (scripted []))
      0 (CrewMember.mk "Alice" "Dance" 3 false) rfl
      (by decide) (by decide) (by decide) (by decide) (by decide) (by decide)⟩

/-- C18 (the code departs from the claim). A member whose declared action is
Encamp, on hex 0 of the sample map, which is safe to rest on: the switch has no
case for Encamp, so resolving the action changes nothing and prints nothing,
and the member keeps `Stress = 3` and `Rested = false`; `EncampAction` itself,
called on the same roster and map, would leave `Stress = 0` and `Rested = true`. -/
theorem resolveAction_encamp_not_dispatched :
    index (sampleMap 0).Hexes (sampleMap 0).CurrentHex =
      Except.ok (Hex.mk 1 false false false true true) ∧
    (∃ s', resolveAction (Sim.mk [CrewMember.mk "Alice" Encamp 3 false] (sampleMap 0)
          (Warden.mk 0 0) (scripted [])) 0 = Except.ok s' ∧
      s'.crew = [CrewMember.mk "Alice" Encamp 3 false] ∧ s'.world.stdout = []) ∧
    (∃ g', EncampAction [CrewMember.mk "Alice" Encamp 3 false] (sampleMap 0) (scripted []) =
      Except.ok ([CrewMember.mk "Alice" Encamp 0 true], sampleMap 0, g')) :=
  ⟨rfl, ⟨_, rfl, rfl, rfl⟩, ⟨_, rfl⟩⟩

/-! ## Rest after a day boundary -/

/-- C19. When `time + 1` is a multiple of 6, a Rest of any member of the roster
that TimePasses returns leaves that member exactly as TimePasses left them:
stress is not lowered. -/
theorem RestAction_after_day_boundary (warden : Warden) (crew : List CrewMember) (g : World)
    (hday : (6 : Int) ∣ warden.Time + 1) :
    ∀ c ∈ (TimePasses warden crew g).2.1, ∀ g' : World, (RestAction c g').1 = c := by
  rw [TimePasses_crew_boundary warden crew g hday]
  intro c hc g'
  obtain ⟨c0, -, rfl⟩ := List.mem_map.mp hc
  simp [RestAction]

/-- Witness of C19: watch 6 ends on the sample roster. -/
theorem RestAction_after_day_boundary_witness :
    ((6 : Int) ∣ (Warden.mk 4 5).Time + 1) ∧
    ∀ c ∈ (TimePasses (Warden.mk 4 5) sampleCrew (scripted [])).2.1, ∀ g' : World,
      (RestAction c g').1 = c :=
  ⟨by decide, RestAction_after_day_boundary (Warden.mk 4 5) sampleCrew (scripted []) (by decide)⟩

/-! ## Invariants of the map -/

theorem EncampAction_ok (crew : List CrewMember) (hexMap : HexMap) (g : World)
    (hlo : 0 ≤ hexMap.CurrentHex) (hhi : hexMap.CurrentHex < hexMap.Hexes.length) :
    ∃ crew' g', EncampAction crew hexMap g = Except.ok (crew', hexMap, g') := by
  obtain ⟨h, hd, -⟩ := index_ok hexMap.Hexes _ hlo hhi
  rcases Bool.eq_false_or_eq_true h.IsSafeToRest with hs | hs
  · simp only [EncampAction, hd, hs, if_true]
    exact ⟨_, _, rfl⟩
  · simp only [EncampAction, hd, hs, Bool.false_eq_true, if_false]
    exact ⟨_, _, rfl⟩

/-- Explore on a valid map returns normally; the hexes are the old ones with
the current hex marked explored, the cursor is kept. -/
theorem ExploreAction_ok (hexMap : HexMap) (g : World) (h : Hex)
    (hcur : index hexMap.Hexes hexMap.CurrentHex = Except.ok h) :
    ∃ g', ExploreAction hexMap g =
      Except.ok
        ({ Hexes := hexMap.Hexes.set hexMap.CurrentHex.toNat { h with IsExplored := true },
           CurrentHex := hexMap.CurrentHex }, g') := by
  rcases Bool.eq_false_or_eq_true h.IsExplored with hex | hex
  · refine ⟨(g.Println "The crew explores the hex.").Println "No new discoveries.", ?_⟩
    rw [ExploreAction_again hexMap g h hcur hex]
    obtain ⟨-, -, hget⟩ := index_valid _ _ _ hcur
    have hh : ({ h with IsExplored := true } : Hex) = h := by
      cases h; simp_all
    have hset : hexMap.Hexes.set hexMap.CurrentHex.toNat h = hexMap.Hexes := by
      apply List.ext_getElem?
      intro j
      rw [List.getElem?_set]
      split_ifs with h1 h2
      · rw [← h1, hget]
      · rw [← h1]; exact (List.getElem?_eq_none (by omega)).symm
      · rfl
    rw [hh, hset]
  · rcases Bool.eq_false_or_eq_true h.HiddenItems with hhid | hhid
    · exact ⟨_, ExploreAction_first hexMap g h hcur hex hhid⟩
    · simp only [ExploreAction, hcur, hex, hhid, Bool.not_false, if_true, Bool.false_eq_true,
        if_false]
      exact ⟨_, rfl⟩

/-- What one operation does to the map: it returns normally on a valid state,
keeps the number of hexes and a valid cursor, keeps every field of every hex
but `IsExplored`, never resets `IsExplored`, and sets it on the current hex
only, in Explore only. -/
theorem applyOp_map (op : Op) (s : Sim)
    (hlo : 0 ≤ s.hexMap.CurrentHex) (hhi : s.hexMap.CurrentHex < s.hexMap.Hexes.length)
    (hop : op.onRoster s.crew = true) :
    ∃ s', applyOp op s = Except.ok s' ∧
      s'.hexMap.Hexes.length = s.hexMap.Hexes.length ∧
      0 ≤ s'.hexMap.CurrentHex ∧ s'.hexMap.CurrentHex < s'.hexMap.Hexes.length ∧
      ∀ (j : Nat) (h : Hex), s.hexMap.Hexes[j]? = some h →
        ∃ h', s'.hexMap.Hexes[j]? = some h' ∧
          h'.ID = h.ID ∧ h'.IsDangerous = h.IsDangerous ∧ h'.HasArtifact = h.HasArtifact ∧
          h'.HiddenItems = h.HiddenItems ∧ h'.IsSafeToRest = h.IsSafeToRest ∧
          (h.IsExplored = true → h'.IsExplored = true) ∧
          (h'.IsExplored ≠ h.IsExplored → op = Op.explore ∧ (j : Int) = s.hexMap.CurrentHex) := by
  have keep : ∀ (j : Nat) (h : Hex), s.hexMap.Hexes[j]? = some h →
      ∃ h', s.hexMap.Hexes[j]? = some h' ∧
        h'.ID = h.ID ∧ h'.IsDangerous = h.IsDangerous ∧ h'.HasArtifact = h.HasArtifact ∧
        h'.HiddenItems = h.HiddenItems ∧ h'.IsSafeToRest = h.IsSafeToRest ∧
        (h.IsExplored = true → h'.IsExplored = true) ∧
        (h'.IsExplored ≠ h.IsExplored → op = Op.explore ∧ (j : Int) = s.hexMap.CurrentHex) :=
    fun j h hj => ⟨h, hj, rfl, rfl, rfl, rfl, rfl, id, fun hne => absurd rfl hne⟩
  have hne : 1 ≤ s.hexMap.Hexes.length := by omega
  cases op with
  | trek =>
    obtain ⟨w1, g1, dest, hT, -⟩ := TrekAction_ok s.hexMap s.warden s.world hne hlo
    have hn0 : (0 : Int) < s.hexMap.Hexes.length := by omega
    simp only [applyOp, hT]
    refine ⟨_, rfl, rfl, ?_, ?_, keep⟩
    · exact Int.emod_nonneg _ (by omega)
    · exact Int.emod_lt_of_pos _ hn0
  | encamp =>
    obtain ⟨crew', g', hE⟩ := EncampAction_ok s.crew s.hexMap s.world hlo hhi
    simp only [applyOp, hE]
    exact ⟨_, rfl, rfl, hlo, hhi, keep⟩
  | rest i =>
    have hi : i < s.crew.length := by simpa [Op.onRoster] using hop
    simp only [applyOp, List.getElem?_eq_getElem hi]
    exact ⟨_, rfl, rfl, hlo, hhi, keep⟩
  | explore =>
    obtain ⟨h0, hd, hget⟩ := index_ok s.hexMap.Hexes _ hlo hhi
    obtain ⟨g', hE⟩ := ExploreAction_ok s.hexMap s.world h0 hd
    have hlt : s.hexMap.CurrentHex.toNat < s.hexMap.Hexes.length := by omega
    simp only [applyOp, hE]
    refine ⟨_, rfl, by simp, hlo, by simpa using hhi, ?_⟩
    intro j h hj
    by_cases hjc : s.hexMap.CurrentHex.toNat = j
    · have hh : h = h0 := by
        rw [← hjc, hget] at hj
        exact (Option.some.inj hj).symm
      subst hh
      refine ⟨{ h with IsExplored := true }, ?_, rfl, rfl, rfl, rfl, rfl, fun _ => rfl, ?_⟩
      · simp only [List.getElem?_set, hjc, if_true]
        rw [← hjc]
        simp [hlt]
      · intro _
        exact ⟨trivial, by omega⟩
    · refine ⟨h, ?_, rfl, rfl, rfl, rfl, rfl, id, fun hne => absurd rfl hne⟩
      simp only [List.getElem?_set, hjc, if_false, hj]
  | collect i =>
    have hi : i < s.crew.length := by simpa [Op.onRoster] using hop
    obtain ⟨g', loc, _, hC, -⟩ := CollectAction_ok s.crew[i] s.hexMap s.world hlo hhi
    simp only [applyOp, List.getElem?_eq_getElem hi, hC]
    exact ⟨_, rfl, rfl, hlo, hhi, keep⟩
  | timePasses =>
    exact ⟨_, rfl, rfl, hlo, hhi, keep⟩

/-- C16. For every state whose map has at least one hex and a valid cursor,
and every operation (Trek, Encamp, Rest, Explore, Collect, TimePasses, with any
rolls), the operation returns normally, the number of hexes is unchanged and
`0 ≤ CurrentHex < len(Hexes)` holds afterwards. -/
theorem cursor_stays_valid (op : Op) (s : Sim)
    (hne : 1 ≤ s.hexMap.Hexes.length)
    (hlo : 0 ≤ s.hexMap.CurrentHex) (hhi : s.hexMap.CurrentHex < s.hexMap.Hexes.length)
    (hop : op.onRoster s.crew = true) :
    ∃ s', applyOp op s = Except.ok s' ∧
      s'.hexMap.Hexes.length = s.hexMap.Hexes.length ∧
      1 ≤ s'.hexMap.Hexes.length ∧
      0 ≤ s'.hexMap.CurrentHex ∧ s'.hexMap.CurrentHex < s'.hexMap.Hexes.length := by
  obtain ⟨s', h1, h2, h3, h4, -⟩ := applyOp_map op s hlo hhi hop
  exact ⟨s', h1, h2, by omega, h3, h4⟩

/-- Witness of C16: a Trek from the last hex of the sample map. -/
theorem cursor_stays_valid_witness :
    (1 ≤ (Sim.mk sampleCrew (sampleMap 2) (Warden.mk 0 0) (scripted [])).hexMap.Hexes.length ∧
      0 ≤ (Sim.mk sampleCrew (sampleMap 2) (Warden.mk 0 0) (scripted [])).hexMap.CurrentHex ∧
      (Sim.mk sampleCrew (sampleMap 2) (Warden.mk 0 0) (scripted [])).hexMap.CurrentHex <
        (Sim.mk sampleCrew (sampleMap 2) (Warden.mk 0 0) (scripted [])).hexMap.Hexes.length ∧
      Op.trek.onRoster (Sim.mk sampleCrew (sampleMap 2) (Warden.mk 0 0) (scripted [])).crew = true) ∧
    ∃ s', applyOp Op.trek (Sim.mk sampleCrew (sampleMap 2) (Warden.mk 0 0) (scripted [])) =
        Except.ok s' ∧
      s'.hexMap.Hexes.length =
        (Sim.mk sampleCrew (sampleMap 2) (Warden.mk 0 0) (scripted [])).hexMap.Hexes.length ∧
      1 ≤ s'.hexMap.Hexes.length ∧
      0 ≤ s'.hexMap.CurrentHex ∧ s'.hexMap.CurrentHex < s'.hexMap.Hexes.length :=
  ⟨by decide,
    cursor_stays_valid Op.trek (Sim.mk sampleCrew (sampleMap 2) (Warden.mk 0 0) (scripted []))
      (by decide) (by decide) (by decide) (by decide)⟩

/-- C17. For every hex of a valid map and every operation (with any rolls):
the operation returns normally and the hex at the same index afterwards has
the same `ID`, `IsDangerous`, `HiddenItems` and `IsSafeToRest`; if `IsExplored`
was true it is true; and if `IsExplored` changed, the operation was Explore and
the hex is the current hex. -/
theorem hex_fields_static (op : Op) (s : Sim)
    (hlo : 0 ≤ s.hexMap.CurrentHex) (hhi : s.hexMap.CurrentHex < s.hexMap.Hexes.length)
    (hop : op.onRoster s.crew = true) :
    ∃ s', applyOp op s = Except.ok s' ∧
      ∀ (j : Nat) (h : Hex), s.hexMap.Hexes[j]? = some h →
        ∃ h', s'.hexMap.Hexes[j]? = some h' ∧
          h'.ID = h.ID ∧ h'.IsDangerous = h.IsDangerous ∧
          h'.HiddenItems = h.HiddenItems ∧ h'.IsSafeToRest = h.IsSafeToRest ∧
          (h.IsExplored = true → h'.IsExplored = true) ∧
          (h'.IsExplored ≠ h.IsExplored → op = Op.explore ∧ (j : Int) = s.hexMap.CurrentHex) := by
  obtain ⟨s', h1, -, -, -, h5⟩ := applyOp_map op s hlo hhi hop
  refine ⟨s', h1, ?_⟩
  intro j h hj
  obtain ⟨h', a, b, c, -, d, e, f, k⟩ := h5 j h hj
  exact ⟨h', a, b, c, d, e, f, k⟩

/-- Witness of C17: an Explore on hex 0 of the sample map. -/
theorem hex_fields_static_witness :
    (0 ≤ (Sim.mk sampleCrew (sampleMap 0) (Warden.mk 0 0) (scripted [])).hexMap.CurrentHex ∧
      (Sim.mk sampleCrew (sampleMap 0) (Warden.mk 0 0) (scripted [])).hexMap.CurrentHex <
        (Sim.mk sampleCrew (sampleMap 0) (Warden.mk 0 0) (scripted [])).hexMap.Hexes.length ∧
      Op.explore.onRoster
        (Sim.mk sampleCrew (sampleMap 0) (Warden.mk 0 0) (scripted [])).crew = true) ∧
    ∃ s', applyOp Op.explore (Sim.mk sampleCrew (sampleMap 0) (Warden.mk 0 0) (scripted [])) =
        Except.ok s' ∧
      ∀ (j : Nat) (h : Hex),
        (Sim.mk sampleCrew (sampleMap 0) (Warden.mk 0 0) (scripted [])).hexMap.Hexes[j]? = some h →
        ∃ h', s'.hexMap.Hexes[j]? = some h' ∧
          h'.ID = h.ID ∧ h'.IsDangerous = h.IsDangerous ∧
          h'.HiddenItems = h.HiddenItems ∧ h'.IsSafeToRest = h.IsSafeToRest ∧
          (h.IsExplored = true → h'.IsExplored = true) ∧
          (h'.IsExplored ≠ h.IsExplored → Op.explore = Op.explore ∧
            (j : Int) =
              (Sim.mk sampleCrew (sampleMap 0) (Warden.mk 0 0) (scripted [])).hexMap.CurrentHex) :=
  ⟨by decide,
    hex_fields_static Op.explore (Sim.mk sampleCrew (sampleMap 0) (Warden.mk 0 0) (scripted []))
      (by decide) (by decide) (by decide)⟩

/-! ## The watch loop -/

theorem set_same {α : Type} (xs : List α) (i : Nat) (x : α) (h : xs[i]? = some x) :
    xs.set i x = xs := by
  have hlt : i < xs.length := (List.getElem?_eq_some_iff.mp h).1
  apply List.ext_getElem?
  intro j
  rw [List.getElem?_set]
  split_ifs with h1
  · rw [← h1, h]
  · rfl

/-- A Rest of a member who is not rested, or is rested with stress 0, returns
the member as they were. -/
theorem RestAction_fixed (c : CrewMember) (g : World) (h : c.Rested = true → c.Stress = 0) :
    (RestAction c g).1 = c := by
  cases c with
  | mk n a st r =>
    cases r
    · simp [RestAction]
    · have h0 : st = 0 := h rfl
      subst h0
      simp [RestAction]

/-- An assignment `crew[i].Action = a` with `i` on the roster returns normally
and changes the declared action of that member only. -/
theorem setAction_ok (crew : List CrewMember) (i : Nat) (a : String) (hi : i < crew.length) :
    ∃ crew', setAction crew i a = Except.ok crew' ∧ crew'.length = crew.length ∧
      ∀ c ∈ crew', ∃ c0 ∈ crew, c.Stress = c0.Stress ∧ c.Rested = c0.Rested := by
  have hget : crew[i]? = some crew[i] := List.getElem?_eq_getElem hi
  refine ⟨crew.set i { crew[i] with Action := a }, by simp only [setAction, hget], by simp, ?_⟩
  intro c hc
  rcases List.mem_or_eq_of_mem_set hc with h | h
  · exact ⟨c, h, rfl, rfl⟩
  · exact ⟨crew[i], List.getElem_mem hi, by rw [h], by rw [h]⟩

theorem declare_ok (decl : List (Nat × String)) : ∀ crew : List CrewMember,
    (∀ p ∈ decl, p.1 < crew.length) →
    ∃ crew', declare decl crew = Except.ok crew' ∧ crew'.length = crew.length ∧
      ∀ c ∈ crew', ∃ c0 ∈ crew, c.Stress = c0.Stress ∧ c.Rested = c0.Rested := by
  induction decl with
  | nil => intro crew _; exact ⟨crew, rfl, rfl, fun c hc => ⟨c, hc, rfl, rfl⟩⟩
  | cons p rest ih =>
    intro crew hp
    obtain ⟨crew1, h1, hl1, hm1⟩ := setAction_ok crew p.1 p.2 (hp p (List.mem_cons_self _ _))
    obtain ⟨crew2, h2, hl2, hm2⟩ := ih crew1 (fun q hq => by
      rw [hl1]; exact hp q (List.mem_cons_of_mem _ hq))
    refine ⟨crew2, by simp only [declare, h1, h2], by rw [hl2, hl1], ?_⟩
    intro c hc
    obtain ⟨c1, hc1, e1, e2⟩ := hm2 c hc
    obtain ⟨c0, hc0, e3, e4⟩ := hm1 c1 hc1
    exact ⟨c0, hc0, by rw [e1, e3], by rw [e2, e4]⟩

/-- The switch of `main` on a valid map, for a member on a roster on which
nobody is rested with stress other than 0: it returns normally, the roster and
the time are as before, the number of hexes is kept, and the cursor moves one
step round the circle if the declared action is Trek and stays otherwise. -/
theorem resolveAction_ok (s : Sim) (i : Nat) (hi : i < s.crew.length)
    (hlo : 0 ≤ s.hexMap.CurrentHex) (hhi : s.hexMap.CurrentHex < s.hexMap.Hexes.length)
    (hq : ∀ c ∈ s.crew, c.Rested = true → c.Stress = 0) :
    ∃ s', resolveAction s i = Except.ok s' ∧ s'.crew = s.crew ∧
      s'.warden.Time = s.warden.Time ∧
      s'.hexMap.Hexes.length = s.hexMap.Hexes.length ∧
      s'.hexMap.CurrentHex =
        (s.hexMap.CurrentHex +
          ((if s.crew[i]?.map CrewMember.Action = some Trek then 1 else 0 : Nat) : Int)) %
          s.hexMap.Hexes.length := by
  have hget : s.crew[i]? = some s.crew[i] := List.getElem?_eq_getElem hi
  have hne : 1 ≤ s.hexMap.Hexes.length := by omega
  have hstay : s.hexMap.CurrentHex = (s.hexMap.CurrentHex + ((0 : Nat) : Int)) %
      s.hexMap.Hexes.length := by
    simp [Int.emod_eq_of_lt hlo hhi]
  by_cases hT : s.crew[i].Action = Trek
  · obtain ⟨w1, g1, dest, hTr, -, -, -, -, hw⟩ :=
      TrekAction_ok s.hexMap s.warden s.world hne hlo
    simp only [resolveAction, hget, hT, if_true, hTr, Option.map_some']
    exact ⟨_, rfl, rfl, hw, rfl, by simp⟩
  have hT' : ¬ (s.crew[i]?.map CrewMember.Action = some Trek) := by
    simp [hget, hT]
  simp only [hT', if_false]
  by_cases hG : s.crew[i].Action = Guard
  · simp only [resolveAction, hget, hT, hG, if_true, if_false]
    exact ⟨_, rfl, rfl, rfl, rfl, hstay⟩
  by_cases hR : s.crew[i].Action = Rest
  · have hrest : (RestAction s.crew[i] s.world).1 = s.crew[i] :=
      RestAction_fixed s.crew[i] s.world (hq s.crew[i] (List.getElem_mem hi))
    simp only [resolveAction, hget, hT, hG, hR, if_true, if_false, hrest,
      set_same s.crew i s.crew[i] hget]
    exact ⟨_, rfl, rfl, rfl, rfl, hstay⟩
  by_cases hE : s.crew[i].Action = Explore
  · obtain ⟨h0, hd, -⟩ := index_ok s.hexMap.Hexes _ hlo hhi
    obtain ⟨g', hEx⟩ := ExploreAction_ok s.hexMap s.world h0 hd
    simp only [resolveAction, hget, hT, hG, hR, hE, if_true, if_false, hEx]
    exact ⟨_, rfl, rfl, rfl, by simp, hstay⟩
  by_cases hC : s.crew[i].Action = Collect
  · obtain ⟨g', loc, _, hCo, -⟩ := CollectAction_ok s.crew[i] s.hexMap s.world hlo hhi
    simp only [resolveAction, hget, hT, hG, hR, hE, hC, if_true, if_false, hCo,
      set_same s.crew i s.crew[i] hget]
    exact ⟨_, rfl, rfl, rfl, rfl, hstay⟩
  · simp only [resolveAction, hget, hT, hG, hR, hE, hC, if_false]
    exact ⟨_, rfl, rfl, rfl, rfl, hstay⟩

/-- The loop over the roster indices, under the conditions of
`resolveAction_ok`: the roster and the time come back as they were, and the
cursor has moved one step for every Trek that was declared. -/
theorem resolveLoop_ok (is : List Nat) : ∀ s : Sim,
    (∀ i ∈ is, i < s.crew.length) →
    0 ≤ s.hexMap.CurrentHex → s.hexMap.CurrentHex < s.hexMap.Hexes.length →
    (∀ c ∈ s.crew, c.Rested = true → c.Stress = 0) →
    ∃ s', resolveLoop is s = Except.ok s' ∧ s'.crew = s.crew ∧
      s'.warden.Time = s.warden.Time ∧
      s'.hexMap.Hexes.length = s.hexMap.Hexes.length ∧
      s'.hexMap.CurrentHex =
        (s.hexMap.CurrentHex + (treksAmong s.crew is : Nat)) % s.hexMap.Hexes.length := by
  induction is with
  | nil =>
    intro s _ hlo hhi _
    exact ⟨s, rfl, rfl, rfl, rfl, by simp [treksAmong, Int.emod_eq_of_lt hlo hhi]⟩
  | cons i rest ih =>
    intro s his hlo hhi hq
    obtain ⟨s1, h1, hc1, ht1, hl1, hcur1⟩ :=
      resolveAction_ok s i (his i (List.mem_cons_self _ _)) hlo hhi hq
    have hn0 : (0 : Int) < s.hexMap.Hexes.length := by omega
    have hlo1 : 0 ≤ s1.hexMap.CurrentHex := by
      rw [hcur1]; exact Int.emod_nonneg _ (by omega)
    have hhi1 : s1.hexMap.CurrentHex < s1.hexMap.Hexes.length := by
      rw [hcur1, hl1]; exact Int.emod_lt_of_pos _ hn0
    obtain ⟨s2, h2, hc2, ht2, hl2, hcur2⟩ := ih s1
      (fun j hj => by rw [hc1]; exact his j (List.mem_cons_of_mem _ hj)) hlo1 hhi1
      (by rw [hc1]; exact hq)
    refine ⟨s2, by simp only [resolveLoop, h1, h2], by rw [hc2, hc1], by rw [ht2, ht1],
      by rw [hl2, hl1], ?_⟩
    rw [hcur2, hcur1, hl1, hc1, Int.emod_add_emod]
    simp only [treksAmong]
    push_cast
    rw [add_assoc]

/-- One watch of the loop of `main` on a valid state whose members all have
stress `v` and rested flag `b` (nobody rested with stress other than 0): it
returns normally, the time is incremented, the roster keeps its length, at a
day boundary every member not rested gets the 64-bit sum `v + 10` and everybody
ends not rested, off a boundary stress and flag are kept; the number of hexes
is kept and the cursor has moved one step per declared Trek. -/
theorem watchBody_step (decl : List (Nat × String)) (k : Int) (s : Sim) (v : Int) (b : Bool)
    (hlo : 0 ≤ s.hexMap.CurrentHex) (hhi : s.hexMap.CurrentHex < s.hexMap.Hexes.length)
    (hdecl : ∀ p ∈ decl, p.1 < s.crew.length)
    (hinv : ∀ c ∈ s.crew, c.Stress = v ∧ c.Rested = b) (hvb : b = true → v = 0) :
    ∃ crewD s', declare decl s.crew = Except.ok crewD ∧ watchBody decl k s = Except.ok s' ∧
      s'.warden.Time = addInt s.warden.Time 1 ∧ s'.crew.length = s.crew.length ∧
      (∀ c ∈ s'.crew,
        ((6 : Int) ∣ s.warden.Time + 1 →
          c.Stress = (if b then v else addInt v 10) ∧ c.Rested = false) ∧
        (¬ (6 : Int) ∣ s.warden.Time + 1 → c.Stress = v ∧ c.Rested = b)) ∧
      s'.hexMap.Hexes.length = s.hexMap.Hexes.length ∧
      s'.hexMap.CurrentHex =
        (s.hexMap.CurrentHex + (treksAmong crewD (List.range crewD.length) : Nat)) %
          s.hexMap.Hexes.length := by
  obtain ⟨crewD, hD, hlD, hmD⟩ := declare_ok decl s.crew hdecl
  have hinvD : ∀ c ∈ crewD, c.Stress = v ∧ c.Rested = b := by
    intro c hc
    obtain ⟨c0, hc0, e1, e2⟩ := hmD c hc
    rw [e1, e2]
    exact hinv c0 hc0
  have hqD : ∀ c ∈ crewD, c.Rested = true → c.Stress = 0 := by
    intro c hc hr
    obtain ⟨e1, e2⟩ := hinvD c hc
    rw [e1]
    exact hvb (e2 ▸ hr)
  obtain ⟨s1, h1, hc1, ht1, hl1, hcur1⟩ := resolveLoop_ok (List.range crewD.length)
    (Sim.mk crewD s.hexMap s.warden
      (s.world.Printf "\n--- Watch %d ---\n" [Arg.int k]))
    (fun i hi => List.mem_range.mp hi) hlo hhi hqD
  simp only [] at hc1 ht1 hl1 hcur1
  refine ⟨crewD,
    Sim.mk (TimePasses s1.warden s1.crew s1.world).2.1 s1.hexMap
      (TimePasses s1.warden s1.crew s1.world).1 (TimePasses s1.warden s1.crew s1.world).2.2,
    hD, by simp only [watchBody, hD, resolveAll, h1], ?_, ?_, ?_, hl1, hcur1⟩
  · simp only [TimePasses_warden, ht1]
  · simp only [TimePasses_length, hc1, hlD]
  · intro c hc
    simp only [] at hc
    refine ⟨?_, ?_⟩
    · intro hday
      rw [TimePasses_crew_boundary _ _ _ (ht1 ▸ hday), hc1] at hc
      obtain ⟨c0, hc0, rfl⟩ := List.mem_map.mp hc
      obtain ⟨e1, e2⟩ := hinvD c0 hc0
      refine ⟨?_, rfl⟩
      simp only [e1, e2]
    · intro hday
      rw [TimePasses_crew_inside _ _ _ (ht1 ▸ hday), hc1] at hc
      exact hinvD c hc

/-- One watch after `n` watches of a run from a fresh roster, while the stress
of watch `n + 1` fits in an `int`: the time is `n + 1` and every member has the
stress and the rested flag of watch `n + 1`. -/
theorem watchBody_ok (decl : List (Nat × String)) (k : Int) (s : Sim) (n : Nat)
    (hfit : 10 * max 0 (((n + 1 : Nat) : Int) / 6 - 1) ≤ maxInt)
    (htime : s.warden.Time = (n : Int))
    (hlo : 0 ≤ s.hexMap.CurrentHex) (hhi : s.hexMap.CurrentHex < s.hexMap.Hexes.length)
    (hdecl : ∀ p ∈ decl, p.1 < s.crew.length)
    (hinv : ∀ c ∈ s.crew,
      c.Stress = 10 * max 0 ((n : Int) / 6 - 1) ∧ c.Rested = decide (n < 6)) :
    ∃ crewD s', declare decl s.crew = Except.ok crewD ∧ watchBody decl k s = Except.ok s' ∧
      s'.warden.Time = ((n + 1 : Nat) : Int) ∧ s'.crew.length = s.crew.length ∧
      (∀ c ∈ s'.crew,
        c.Stress = 10 * max 0 (((n + 1 : Nat) : Int) / 6 - 1) ∧ c.Rested = decide (n + 1 < 6)) ∧
      s'.hexMap.Hexes.length = s.hexMap.Hexes.length ∧
      s'.hexMap.CurrentHex =
        (s.hexMap.CurrentHex + (treksAmong crewD (List.range crewD.length) : Nat)) %
          s.hexMap.Hexes.length := by
  have hfit' : 10 * max 0 (((n + 1 : Nat) : Int) / 6 - 1) ≤ 9223372036854775807 := hfit
  obtain ⟨crewD, s', hD, hW, ht', hl', hinv', hlen', hcur'⟩ :=
    watchBody_step decl k s (10 * max 0 ((n : Int) / 6 - 1)) (decide (n < 6)) hlo hhi hdecl hinv
      (fun hb => by
        have hn : n < 6 := of_decide_eq_true hb
        omega)
  refine ⟨crewD, s', hD, hW, ?_, hl', ?_, hlen', hcur'⟩
  · rw [ht', htime, addInt_one _ (by unfold maxInt; omega)]
    push_cast
    rfl
  · intro c hc
    obtain ⟨hB, hI⟩ := hinv' c hc
    rw [htime] at hB hI
    by_cases hday : (6 : Int) ∣ (n : Int) + 1
    · obtain ⟨e1, e2⟩ := hB hday
      rw [e1, e2]
      by_cases hn : n < 6
      · simp only [hn, decide_True, if_true]
        refine ⟨by omega, ?_⟩
        have : ¬ n + 1 < 6 := by omega
        simp [this]
      · simp only [hn, decide_False, Bool.false_eq_true, if_false]
        rw [addInt_ten _ (by unfold maxInt; omega)]
        refine ⟨by omega, ?_⟩
        have : ¬ n + 1 < 6 := by omega
        simp [this]
    · obtain ⟨e1, e2⟩ := hI hday
      rw [e1, e2]
      refine ⟨by omega, ?_⟩
      have : (n + 1 < 6) ↔ (n < 6) := by omega
      simp [this]

theorem InitializeCrew_fresh (names : List String) :
    (InitializeCrew names).length = names.length ∧
    ∀ c ∈ InitializeCrew names, c.Stress = 0 ∧ c.Rested = true := by
  rw [InitializeCrew_eq_map]
  refine ⟨by simp, ?_⟩
  intro c hc
  obtain ⟨name, -, rfl⟩ := List.mem_map.mp hc
  exact ⟨rfl, rfl⟩

/-- Any number `n` of watches from a fresh roster at time 0 on a valid map,
while the stress of watch `n` fits in an `int`: the run returns normally, the
time is the number of watches, and every member has stress
`10 * max 0 (n / 6 - 1)` and is rested exactly while `n < 6`. -/
theorem runWatches_ok (decl : Nat → List (Nat × String)) (s0 : Sim)
    (htime : s0.warden.Time = 0)
    (hlo : 0 ≤ s0.hexMap.CurrentHex) (hhi : s0.hexMap.CurrentHex < s0.hexMap.Hexes.length)
    (hdecl : ∀ k, ∀ p ∈ decl k, p.1 < s0.crew.length)
    (hinit : ∀ c ∈ s0.crew, c.Stress = 0 ∧ c.Rested = true) :
    ∀ n : Nat, 10 * max 0 ((n : Int) / 6 - 1) ≤ maxInt →
    ∃ s, runWatches decl n s0 = Except.ok s ∧
      s.warden.Time = (n : Int) ∧ s.crew.length = s0.crew.length ∧
      (∀ c ∈ s.crew, c.Stress = 10 * max 0 ((n : Int) / 6 - 1) ∧ c.Rested = decide (n < 6)) ∧
      s.hexMap.Hexes.length = s0.hexMap.Hexes.length ∧
      0 ≤ s.hexMap.CurrentHex ∧ s.hexMap.CurrentHex < s.hexMap.Hexes.length := by
  intro n
  induction n with
  | zero =>
    intro _
    refine ⟨s0, rfl, by simpa using htime, rfl, ?_, rfl, hlo, hhi⟩
    intro c hc
    obtain ⟨e1, e2⟩ := hinit c hc
    rw [e1, e2]
    exact ⟨by norm_num, by decide⟩
  | succ n ih =>
    intro hfit
    have hfit0 : 10 * max 0 ((n : Int) / 6 - 1) ≤ maxInt := by
      unfold maxInt at *
      push_cast at hfit
      omega
    obtain ⟨s, hs, ht, hl, hinv, hlen, hlo1, hhi1⟩ := ih hfit0
    have hdecl1 : ∀ p ∈ decl (n + 1), p.1 < s.crew.length := by
      intro p hp
      rw [hl]
      exact hdecl (n + 1) p hp
    obtain ⟨crewD, s', -, hW, ht', hl', hinv', hlen', hcur'⟩ :=
      watchBody_ok (decl (n + 1)) ((n + 1 : Nat) : Int) s n hfit ht hlo1 hhi1 hdecl1 hinv
    have hn0 : (0 : Int) < s.hexMap.Hexes.length := by omega
    refine ⟨s', by simp only [runWatches, hs, hW], ht', by rw [hl', hl], hinv',
      by rw [hlen', hlen], ?_, ?_⟩
    · rw [hcur']; exact Int.emod_nonneg _ (by omega)
    · rw [hcur', hlen']; exact Int.emod_lt_of_pos _ hn0

/-- The declarations of `main` on a roster of three: exactly one Trek. -/
theorem mainDecl_treks (crew crewD : List CrewMember) (h3 : crew.length = 3)
    (hD : declare mainDecl crew = Except.ok crewD) :
    treksAmong crewD (List.range crewD.length) = 1 := by
  obtain ⟨a, b, c, rfl⟩ := List.length_eq_three.mp h3
  simp only [declare, mainDecl, setAction, List.getElem?_cons_zero, List.getElem?_cons_succ,
    List.set_cons_zero, List.set_cons_succ, Except.ok.injEq] at hD
  subst hD
  show treksAmong _ [0, 1, 2] = 1
  simp [treksAmong, Trek, Guard, Rest]

/-- The run of the loop of `main` with the declarations of `main`, from a
fresh roster of three on a three-hex map with the party on hex 0: as
`runWatches_ok`, and the cursor after `n` watches is `n mod 3`. -/
theorem mainRun_ok (s0 : Sim) (htime : s0.warden.Time = 0) (h3 : s0.crew.length = 3)
    (hinit : ∀ c ∈ s0.crew, c.Stress = 0 ∧ c.Rested = true)
    (hlen : s0.hexMap.Hexes.length = 3) (hcur : s0.hexMap.CurrentHex = 0) :
    ∀ n : Nat, 10 * max 0 ((n : Int) / 6 - 1) ≤ maxInt →
    ∃ s, runWatches (fun _ => mainDecl) n s0 = Except.ok s ∧
      s.warden.Time = (n : Int) ∧ s.crew.length = 3 ∧
      (∀ c ∈ s.crew, c.Stress = 10 * max 0 ((n : Int) / 6 - 1) ∧ c.Rested = decide (n < 6)) ∧
      s.hexMap.Hexes.length = 3 ∧ s.hexMap.CurrentHex = (n : Int) % 3 := by
  intro n
  induction n with
  | zero =>
    intro _
    refine ⟨s0, rfl, by simpa using htime, h3, ?_, hlen, by simpa using hcur⟩
    intro c hc
    obtain ⟨e1, e2⟩ := hinit c hc
    rw [e1, e2]
    exact ⟨by norm_num, by decide⟩
  | succ n ih =>
    intro hfit
    have hfit0 : 10 * max 0 ((n : Int) / 6 - 1) ≤ maxInt := by
      unfold maxInt at *
      push_cast at hfit
      omega
    obtain ⟨s, hs, ht, hl, hinv, hlen1, hcur1⟩ := ih hfit0
    have hlo1 : 0 ≤ s.hexMap.CurrentHex := by rw [hcur1]; omega
    have hhi1 : s.hexMap.CurrentHex < s.hexMap.Hexes.length := by rw [hcur1, hlen1]; omega
    have hdecl1 : ∀ p ∈ mainDecl, p.1 < s.crew.length := by
      intro p hp
      rw [hl]
      simp only [mainDecl, List.mem_cons, List.mem_singleton, List.not_mem_nil,
        or_false] at hp
      rcases hp with rfl | rfl | rfl <;> decide
    obtain ⟨crewD, s', hD, hW, ht', hl', hinv', hlen', hcur'⟩ :=
      watchBody_ok mainDecl ((n + 1 : Nat) : Int) s n hfit ht hlo1 hhi1 hdecl1 hinv
    rw [mainDecl_treks s.crew crewD hl hD, hlen1, hcur1] at hcur'
    refine ⟨s', by simp only [runWatches, hs, hW], ht', by rw [hl', hl], hinv',
      by rw [hlen', hlen1], ?_⟩
    rw [hcur']
    push_cast
    omega

theorem stress_of_three (crew : List CrewMember) (v : Int) (h3 : crew.length = 3)
    (hv : ∀ c ∈ crew, c.Stress = v) : crew.map CrewMember.Stress = [v, v, v] := by
  obtain ⟨a, b, c, rfl⟩ := List.length_eq_three.mp h3
  simp [hv a (by simp), hv b (by simp), hv c (by simp)]

theorem startState_fresh (names : List String) (hexMap : HexMap) (eventDie : Int) (g : World) :
    (startState names hexMap eventDie g).warden.Time = 0 ∧
    (startState names hexMap eventDie g).crew.length = names.length ∧
    (∀ c ∈ (startState names hexMap eventDie g).crew, c.Stress = 0 ∧ c.Rested = true) ∧
    (startState names hexMap eventDie g).hexMap = hexMap :=
  ⟨rfl, (InitializeCrew_fresh names).1, (InitializeCrew_fresh names).2, rfl⟩

/-- The six-watch run of the end-to-end scenario, for any three names, any
three-hex map with the party on hex 0, any rolls. -/
theorem six_watches_ok (a b c : String) (hexMap : HexMap) (eventDie : Int) (g : World)
    (hlen : hexMap.Hexes.length = 3) (hcur : hexMap.CurrentHex = 0) :
    ∃ s, runWatches (fun _ => mainDecl) 6 (startState [a, b, c] hexMap eventDie g) =
        Except.ok s ∧
      s.crew.map CrewMember.Stress = [0, 0, 0] ∧ s.hexMap.CurrentHex = 0 ∧
      s.warden.Time = 6 := by
  obtain ⟨h1, h2, h3, -⟩ := startState_fresh [a, b, c] hexMap eventDie g
  obtain ⟨s, hs, ht, hl, hinv, -, hc⟩ :=
    mainRun_ok (startState [a, b, c] hexMap eventDie g) h1 h2 h3 hlen hcur 6 (by decide)
  refine ⟨s, hs, ?_, ?_, ?_⟩
  · apply stress_of_three s.crew 0 hl
    intro m hm
    rw [(hinv m hm).1]
    norm_num
  · rw [hc]; norm_num
  · rw [ht]; norm_num

/-- C12 as stated fails: after the six watches of the scenario on the map of
`main`, members 0 and 1 have stress 0, not 10. -/
theorem six_watches_no_penalty :
    ∃ s, runWatches (fun _ => mainDecl) 6
          (startState ["Alice", "Bob", "Charlie"] (sampleMap 0) 0 (scripted [])) = Except.ok s ∧
      s.crew.map CrewMember.Stress = [0, 0, 0] ∧
      s.crew.map CrewMember.Stress ≠ [10, 10, 0] := by
  obtain ⟨s, hs, hst, -, -⟩ :=
    six_watches_ok "Alice" "Bob" "Charlie" (sampleMap 0) 0 (scripted []) rfl rfl
  refine ⟨s, hs, hst, ?_⟩
  rw [hst]
  decide

/-- C12, amended. A roster of three built by InitializeCrew, a three-hex map
with hex 1 dangerous and the party on hex 0, a warden at time 0, and six
watches of the loop in which member 0 treks, member 1 guards and member 2
rests: for every sequence of rolls the run returns normally, all three members
have stress 0 (each starts rested, which spares them at the first day
boundary), the cursor is 0 and the time is 6. -/
theorem end_to_end_six_watches (a b c : String) (hexMap : HexMap) (eventDie : Int) (g : World)
    (hlen : hexMap.Hexes.length = 3)
    (_hdanger : hexMap.Hexes[1]?.map Hex.IsDangerous = some true)
    (hcur : hexMap.CurrentHex = 0) :
    ∃ s, runWatches (fun _ => mainDecl) 6 (startState [a, b, c] hexMap eventDie g) =
        Except.ok s ∧
      s.crew.map CrewMember.Stress = [0, 0, 0] ∧ s.hexMap.CurrentHex = 0 ∧
      s.warden.Time = 6 :=
  six_watches_ok a b c hexMap eventDie g hlen hcur

/-- Witness of C12 amended: the roster and the map of `main`. -/
theorem end_to_end_six_watches_witness :
    ((sampleMap 0).Hexes.length = 3 ∧
      (sampleMap 0).Hexes[1]?.map Hex.IsDangerous = some true ∧
      (sampleMap 0).CurrentHex = 0) ∧
    ∃ s, runWatches (fun _ => mainDecl) 6
          (startState ["Alice", "Bob", "Charlie"] (sampleMap 0) 0 (scripted [2, 7])) =
        Except.ok s ∧
      s.crew.map CrewMember.Stress = [0, 0, 0] ∧ s.hexMap.CurrentHex = 0 ∧
      s.warden.Time = 6 :=
  ⟨⟨rfl, rfl, rfl⟩,
    end_to_end_six_watches "Alice" "Bob" "Charlie" (sampleMap 0) 0 (scripted [2, 7])
      rfl rfl rfl⟩

/-- One more watch after a run that returned normally. -/
theorem runWatches_step (decl : Nat → List (Nat × String)) (n : Nat) (s0 s s' : Sim)
    (hs : runWatches decl n s0 = Except.ok s)
    (hW : watchBody (decl (n + 1)) ((n + 1 : Nat) : Int) s = Except.ok s') :
    runWatches decl (n + 1) s0 = Except.ok s' := by
  simp only [runWatches, hs, hW]

/-- C20 as stated fails: after 5534023222112865492 watches the formula gives
9223372036854775810, which no `int` holds; the stress of the only member has
wrapped round to -9223372036854775806, a negative number. -/
theorem runWatches_stress_wraps :
    10 * max 0 (((5534023222112865492 : Nat) : Int) / 6 - 1) = 9223372036854775810 ∧
    ∃ s, runWatches (fun _ => []) 5534023222112865492
          (startState ["Alice"] (sampleMap 0) 0 (scripted [])) = Except.ok s ∧
      s.crew.length = 1 ∧
      ∀ c ∈ s.crew, c.Stress = -9223372036854775806 ∧
        c.Stress ≠ 10 * max 0 (((5534023222112865492 : Nat) : Int) / 6 - 1) ∧ c.Stress < 0 := by
  have hform : 10 * max 0 (((5534023222112865492 : Nat) : Int) / 6 - 1) =
      9223372036854775810 := by
    norm_num
  refine ⟨hform, ?_⟩
  obtain ⟨h1, h2, h3, -⟩ := startState_fresh ["Alice"] (sampleMap 0) 0 (scripted [])
  obtain ⟨s, hs, ht, hl, hinv, -, hlo, hhi⟩ :=
    runWatches_ok (fun _ => []) (startState ["Alice"] (sampleMap 0) 0 (scripted [])) h1
      (by decide) (by decide) (fun _ p hp => absurd hp (List.not_mem_nil p)) h3
      5534023222112865491 (by unfold maxInt; norm_num)
  obtain ⟨crewD, s', -, hW, -, hl', hinv', -, -⟩ :=
    watchBody_step [] ((5534023222112865491 + 1 : Nat) : Int) s
      (10 * max 0 (((5534023222112865491 : Nat) : Int) / 6 - 1))
      (decide (5534023222112865491 < 6)) hlo hhi
      (fun p hp => absurd hp (List.not_mem_nil p)) hinv
      (fun hb => absurd (of_decide_eq_true hb) (by norm_num))
  have hrun : runWatches (fun _ => []) 5534023222112865492
      (startState ["Alice"] (sampleMap 0) 0 (scripted [])) = Except.ok s' := by
    have hn : (5534023222112865492 : Nat) = 5534023222112865491 + 1 := by norm_num
    rw [hn]
    exact runWatches_step (fun _ => []) 5534023222112865491 _ s s' hs hW
  refine ⟨s', hrun, by rw [hl', hl, h2]; rfl, ?_⟩
  intro c hc
  have hday : (6 : Int) ∣ s.warden.Time + 1 := by
    rw [ht]
    norm_num
  obtain ⟨e1, -⟩ := (hinv' c hc).1 hday
  have hval : c.Stress = -9223372036854775806 := by
    rw [e1]
    have hv : (10 : Int) * max 0 (((5534023222112865491 : Nat) : Int) / 6 - 1) =
        9223372036854775800 := by norm_num
    rw [hv]
    have hb : decide (5534023222112865491 < 6) = false := by decide
    rw [hb]
    decide
  refine ⟨hval, ?_, ?_⟩
  · rw [hform, hval]; decide
  · rw [hval]; decide

/-- C20, amended. From a roster built by InitializeCrew, a warden at time 0 and
a non-empty map with a valid cursor, `n` watches of the loop as coded (any
declarations to members of the roster, any action strings, any rolls), for
every `n` whose stress `10 * max 0 (n / 6 - 1)` fits in an `int` (that is,
`n ≤ 5534023222112865491`): the run returns normally, the time is `n`, the
roster has its length, and every member has stress `10 * max 0 (n / 6 - 1)`,
which is not negative. -/
theorem runWatches_stress (names : List String) (decl : Nat → List (Nat × String))
    (hexMap : HexMap) (eventDie : Int) (g : World) (n : Nat)
    (hfit : 10 * max 0 ((n : Int) / 6 - 1) ≤ maxInt)
    (_hne : 1 ≤ hexMap.Hexes.length)
    (hlo : 0 ≤ hexMap.CurrentHex) (hhi : hexMap.CurrentHex < hexMap.Hexes.length)
    (hdecl : ∀ k, ∀ p ∈ decl k, p.1 < names.length) :
    ∃ s, runWatches decl n (startState names hexMap eventDie g) = Except.ok s ∧
      s.warden.Time = (n : Int) ∧ s.crew.length = names.length ∧
      ∀ c ∈ s.crew, c.Stress = 10 * max 0 ((n : Int) / 6 - 1) ∧ 0 ≤ c.Stress := by
  obtain ⟨h1, h2, h3, -⟩ := startState_fresh names hexMap eventDie g
  obtain ⟨s, hs, ht, hl, hinv, -, -, -⟩ :=
    runWatches_ok decl (startState names hexMap eventDie g) h1 hlo hhi
      (fun k p hp => by rw [h2]; exact hdecl k p hp) h3 n hfit
  refine ⟨s, hs, ht, by rw [hl, h2], ?_⟩
  intro c hc
  obtain ⟨e, -⟩ := hinv c hc
  exact ⟨e, by rw [e]; omega⟩

/-- The bound of C20 amended, as a bound on the number of watches. -/
theorem fits_iff_watches (n : Nat) :
    10 * max 0 ((n : Int) / 6 - 1) ≤ maxInt ↔ n ≤ 5534023222112865491 := by
  unfold maxInt
  omega

/-- Witness of C20 amended: thirteen watches of a roster of two, one declaring
Trek and the other Encamp, on the sample map. -/
theorem runWatches_stress_witness :
    (10 * max 0 (((13 : Nat) : Int) / 6 - 1) ≤ maxInt ∧
      1 ≤ (sampleMap 1).Hexes.length ∧ 0 ≤ (sampleMap 1).CurrentHex ∧
      (sampleMap 1).CurrentHex < (sampleMap 1).Hexes.length ∧
      ∀ k : Nat, ∀ p ∈ (fun _ : Nat => [(0, "Trek"), (1, "Encamp")]) k,
        p.1 < ["Alice", "Bob"].length) ∧
    ∃ s, runWatches (fun _ : Nat => [(0, "Trek"), (1, "Encamp")]) 13
          (startState ["Alice", "Bob"] (sampleMap 1) 0 (scripted [4, 4, 9])) = Except.ok s ∧
      s.warden.Time = ((13 : Nat) : Int) ∧ s.crew.length = ["Alice", "Bob"].length ∧
      ∀ c ∈ s.crew, c.Stress = 10 * max 0 (((13 : Nat) : Int) / 6 - 1) ∧ 0 ≤ c.Stress :=
  ⟨⟨by decide, by decide, by decide, by decide, fun _ p hp => by
      simp only [List.mem_cons, List.mem_singleton, List.not_mem_nil, or_false] at hp
      rcases hp with rfl | rfl <;> decide⟩,
    runWatches_stress ["Alice", "Bob"] (fun _ : Nat => [(0, "Trek"), (1, "Encamp")])
      (sampleMap 1) 0 (scripted [4, 4, 9]) 13 (by decide) (by decide) (by decide) (by decide)
      (fun _ p hp => by
        simp only [List.mem_cons, List.mem_singleton, List.not_mem_nil, or_false] at hp
        rcases hp with rfl | rfl <;> decide)⟩

end Orbital
